import Mathlib

/-!
Verification of the answer-resolution engine of the Smart AI chat bot
Lambda (`ShreyashMishra_23BCE10777_Smart_Ai_Chat_bot_lambda_function.py`).

The Python source is shallowly embedded below.  External collaborators
(DynamoDB tables, the Bedrock runtime) are modelled by explicit outcome
parameters: a store operation is an `Except StoreErr _` value, a Bedrock
invocation is an `InvokeOutcome`.  Python floats produced by
`difflib.SequenceMatcher.ratio` (an exact fraction `2*M/(la+lb)` of small
integers) are modelled as rationals.  Strings are Lean `String`s; where the
code lower-cases (`str.lower`) we use `Char.toLower`, which agrees with
Python on the ASCII range exercised here.
-/

namespace SmartChat

/-- `str.lower()` on the character list of a string (ASCII case folding). -/
def lowerChars (s : String) : List Char := s.data.map Char.toLower

/-- `str.lower()` returning a string. -/
def lowerStr (s : String) : String := ⟨lowerChars s⟩

/-- `str.upper()` returning a string. -/
def upperStr (s : String) : String := ⟨s.data.map Char.toUpper⟩

/-- `str.strip()` on a character list: drop leading and trailing whitespace. -/
def stripChars (cs : List Char) : List Char :=
  ((cs.dropWhile Char.isWhitespace).reverse.dropWhile Char.isWhitespace).reverse

/-- `str.strip()` returning a string. -/
def pyStrip (s : String) : String := ⟨stripChars s.data⟩

/-- Python's `needle in hay` on lists (contiguous-subsequence test). -/
def subseqIn (needle : List Char) : List Char → Bool
  | [] => needle.isEmpty
  | c :: rest => needle.isPrefixOf (c :: rest) || subseqIn needle rest

/-- Python's `needle in hay` for strings (substring test). -/
def strContains (hay needle : String) : Bool := subseqIn needle.data hay.data

/-! ## `difflib.SequenceMatcher` (CPython, `isjunk = None`, `autojunk = True`)

`similarity_score` (line 183) is
`SequenceMatcher(None, s1.lower(), s2.lower()).ratio()`.  We embed the
CPython algorithm over `List Char`:

* `__chain_b`: `b2j` maps each element of `b` to its (increasing) list of
  indices; since `isjunk` is `None` the junk set is empty, and the autojunk
  heuristic deletes "popular" elements (count `> len(b)//100 + 1`) whenever
  `len(b) >= 200`.
* `find_longest_match`: the `j2len` dynamic-programming pass followed by the
  two non-junk extension loops.  The two junk extension loops of CPython are
  omitted because `bjunk` is empty, so their guards are never true.
* `get_matching_blocks` / `ratio`: total matched elements `M` over the
  recursive block decomposition, and the ratio `2*M/(la+lb)` (`1` when both
  inputs are empty, per `_calculate_ratio`).
-/

/-- Autojunk "popular" test of `SequenceMatcher.__chain_b`: with
`n = len(b) ≥ 200`, an element is purged when its index list is longer than
`n // 100 + 1`. -/
def smPopular (b : List Char) (c : Char) : Bool :=
  decide (200 ≤ b.length) && decide (b.length / 100 + 1 < b.count c)

/-- Increasing list of indices of `c` in `b` (the `b2j` entry before
purging). -/
def smIndices (b : List Char) (c : Char) : List Nat :=
  (List.range b.length).filter (fun j => b.getD j ' ' == c)

/-- `b2j.get(c, [])` after autojunk purging. -/
def smB2j (b : List Char) (c : Char) : List Nat :=
  if smPopular b c then [] else smIndices b c

/-- The indices of the inner loop of `find_longest_match` actually processed
for one row: `j < blo` is skipped (`continue`) and the scan stops at the
first `j ≥ bhi` (`break`); the index list is increasing. -/
def smRowJs (b : List Char) (blo bhi : Nat) (c : Char) : List Nat :=
  ((smB2j b c).takeWhile (fun j => decide (j < bhi))).filter (fun j => decide (blo ≤ j))

/-- `Match(besti, bestj, size)` of `find_longest_match`. -/
structure SMatch where
  besti : Nat
  bestj : Nat
  size : Nat
deriving Repr, DecidableEq

/-- One step of the inner loop of `find_longest_match`:
`k = newj2len[j] = j2len.get(j-1, 0) + 1` and the best-block update
(`j2len.get(-1, 0) = 0` corresponds to the `j = 0` case). -/
def smStep (j2len : Nat → Nat) (i : Nat) (st : (Nat → Nat) × SMatch) (j : Nat) :
    (Nat → Nat) × SMatch :=
  let k := (if j = 0 then 0 else j2len (j - 1)) + 1
  let nj : Nat → Nat := fun j' => if j' = j then k else st.1 j'
  if st.2.size < k then (nj, ⟨i + 1 - k, j + 1 - k, k⟩) else (nj, st.2)

/-- One row `i` of the `j2len` pass: the old `j2len` is `acc.1`, the fresh one
starts empty (constant `0`). -/
def smRow (a b : List Char) (blo bhi : Nat) (acc : (Nat → Nat) × SMatch) (i : Nat) :
    (Nat → Nat) × SMatch :=
  (smRowJs b blo bhi (a.getD i ' ')).foldl (smStep acc.1 i) ((fun _ => 0), acc.2)

/-- The `j2len` pass of `find_longest_match` over rows `alo ≤ i < ahi`. -/
def smPhase1 (a b : List Char) (alo ahi blo bhi : Nat) : SMatch :=
  ((List.range' alo (ahi - alo)).foldl (smRow a b blo bhi) ((fun _ => 0), ⟨alo, blo, 0⟩)).2

/-- The backward extension loop of `find_longest_match`, with an explicit
iteration bound.  Each iteration decrements `besti`, and the guard requires
`alo < besti`, so running the loop with `besti` as the bound is exact: when
the bound reaches `0` the current `besti` is `0` and the guard is false
anyway. -/
def smExtendBackGo (a b : List Char) (alo blo : Nat) : Nat → SMatch → SMatch
  | 0, m => m
  | fuel + 1, m =>
    if alo < m.besti ∧ blo < m.bestj ∧
        a.getD (m.besti - 1) ' ' = b.getD (m.bestj - 1) ' ' then
      smExtendBackGo a b alo blo fuel ⟨m.besti - 1, m.bestj - 1, m.size + 1⟩
    else m

/-- Backward extension loop of `find_longest_match` (the `bjunk` guard is
vacuous since `isjunk = None`). -/
def smExtendBack (a b : List Char) (alo blo : Nat) (m : SMatch) : SMatch :=
  smExtendBackGo a b alo blo m.besti m

/-- The forward extension loop of `find_longest_match`, with an explicit
iteration bound.  Each iteration increments `size`, the guard requires
`besti + size < ahi`, and `besti` is unchanged, so `ahi - (besti + size)`
is an exact bound: when it reaches `0` the guard is false anyway. -/
def smExtendFwdGo (a b : List Char) (ahi bhi : Nat) : Nat → SMatch → SMatch
  | 0, m => m
  | fuel + 1, m =>
    if m.besti + m.size < ahi ∧ m.bestj + m.size < bhi ∧
        a.getD (m.besti + m.size) ' ' = b.getD (m.bestj + m.size) ' ' then
      smExtendFwdGo a b ahi bhi fuel ⟨m.besti, m.bestj, m.size + 1⟩
    else m

/-- Forward extension loop of `find_longest_match`. -/
def smExtendFwd (a b : List Char) (ahi bhi : Nat) (m : SMatch) : SMatch :=
  smExtendFwdGo a b ahi bhi (ahi - (m.besti + m.size)) m

/-- `find_longest_match(alo, ahi, blo, bhi)`. -/
def findLongestMatch (a b : List Char) (alo ahi blo bhi : Nat) : SMatch :=
  smExtendFwd a b ahi bhi (smExtendBack a b alo blo (smPhase1 a b alo ahi blo bhi))

/-! ### Range invariant of `find_longest_match`

`find_longest_match` documents `alo ≤ i ≤ i+k ≤ ahi` and
`blo ≤ j ≤ j+k ≤ bhi` for its result; we prove the part needed for the
block decomposition to be well defined and bounded. -/

/-- Range invariant of a candidate match of `find_longest_match`. -/
def SMB (alo ahi blo bhi : Nat) (m : SMatch) : Prop :=
  alo ≤ m.besti ∧ blo ≤ m.bestj ∧
    (0 < m.size → m.besti + m.size ≤ ahi ∧ m.bestj + m.size ≤ bhi) ∧
    (m.size = 0 → m.besti = alo ∧ m.bestj = blo)

theorem smRowJs_mem {b : List Char} {blo bhi : Nat} {c : Char} {j : Nat}
    (h : j ∈ smRowJs b blo bhi c) : blo ≤ j ∧ j < bhi := by
  unfold smRowJs at h
  have h1 := List.of_mem_filter h
  have h2 := List.mem_takeWhile_imp (List.mem_of_mem_filter h)
  simp only [decide_eq_true_eq] at h1 h2
  exact ⟨h1, h2⟩

/-- Invariant of the inner (`j2len`) loop of `find_longest_match`: values of
the fresh `j2len` stay bounded by position and row, and the best candidate
keeps the range invariant. -/
theorem smStep_fold (alo ahi blo bhi : Nat) (j2len : Nat → Nat) (i : Nat)
    (hia : alo ≤ i) (hih : i < ahi)
    (hold : ∀ j, j2len j ≠ 0 → j2len j + blo ≤ j + 1 ∧ j2len j + alo ≤ i) :
    ∀ (js : List Nat) (st : (Nat → Nat) × SMatch),
      (∀ j ∈ js, blo ≤ j ∧ j < bhi) →
      SMB alo ahi blo bhi st.2 →
      (∀ j, st.1 j ≠ 0 → st.1 j + blo ≤ j + 1 ∧ st.1 j + alo ≤ i + 1) →
      SMB alo ahi blo bhi (js.foldl (smStep j2len i) st).2 ∧
      (∀ j, (js.foldl (smStep j2len i) st).1 j ≠ 0 →
        (js.foldl (smStep j2len i) st).1 j + blo ≤ j + 1 ∧
        (js.foldl (smStep j2len i) st).1 j + alo ≤ i + 1) := by
  intro js
  induction js with
  | nil => intro st _ hb hnj; exact ⟨hb, hnj⟩
  | cons j rest ih =>
    intro st hmem hb hnj
    simp only [List.foldl_cons]
    have hjm : blo ≤ j ∧ j < bhi := hmem j (List.mem_cons_self _ _)
    have hkb : ((if j = 0 then 0 else j2len (j - 1)) + 1) + blo ≤ j + 1 ∧
        ((if j = 0 then 0 else j2len (j - 1)) + 1) + alo ≤ i + 1 := by
      by_cases h0 : j = 0
      · rw [if_pos h0]; omega
      · rw [if_neg h0]
        by_cases hv : j2len (j - 1) = 0
        · rw [hv]; omega
        · have := hold (j - 1) hv; omega
    apply ih
    · intro x hx; exact hmem x (List.mem_cons_of_mem _ hx)
    · -- the best candidate after one step keeps the range invariant
      unfold smStep
      by_cases hlt : st.2.size < (if j = 0 then 0 else j2len (j - 1)) + 1
      · simp only [if_pos hlt]
        unfold SMB
        dsimp only
        refine ⟨by omega, by omega, fun _ => ⟨by omega, by omega⟩, fun hz => by omega⟩
      · simp only [if_neg hlt]; exact hb
    · -- the fresh j2len after one step keeps the value bounds
      unfold smStep
      by_cases hlt : st.2.size < (if j = 0 then 0 else j2len (j - 1)) + 1
      · simp only [if_pos hlt]
        intro j' hj'
        by_cases hjj : j' = j
        · subst hjj; simp only [if_pos rfl] at hj' ⊢; exact hkb
        · simp only [if_neg hjj] at hj' ⊢; exact hnj j' hj'
      · simp only [if_neg hlt]
        intro j' hj'
        by_cases hjj : j' = j
        · subst hjj; simp only [if_pos rfl] at hj' ⊢; exact hkb
        · simp only [if_neg hjj] at hj' ⊢; exact hnj j' hj'

/-- One row of the `j2len` pass preserves the range invariant. -/
theorem smRow_inv (a b : List Char) (alo ahi blo bhi i : Nat) (acc : (Nat → Nat) × SMatch)
    (hia : alo ≤ i) (hih : i < ahi)
    (hb : SMB alo ahi blo bhi acc.2)
    (hold : ∀ j, acc.1 j ≠ 0 → acc.1 j + blo ≤ j + 1 ∧ acc.1 j + alo ≤ i) :
    SMB alo ahi blo bhi (smRow a b blo bhi acc i).2 ∧
    (∀ j, (smRow a b blo bhi acc i).1 j ≠ 0 →
      (smRow a b blo bhi acc i).1 j + blo ≤ j + 1 ∧
      (smRow a b blo bhi acc i).1 j + alo ≤ i + 1) := by
  unfold smRow
  exact smStep_fold alo ahi blo bhi acc.1 i hia hih hold _ _
    (fun j hj => smRowJs_mem hj) hb (fun j h0 => absurd rfl h0)

theorem smPhase1_fold (a b : List Char) (alo ahi blo bhi : Nat) :
    ∀ (cnt start : Nat) (st : (Nat → Nat) × SMatch),
      alo ≤ start → start + cnt ≤ ahi →
      SMB alo ahi blo bhi st.2 →
      (∀ j, st.1 j ≠ 0 → st.1 j + blo ≤ j + 1 ∧ st.1 j + alo ≤ start) →
      SMB alo ahi blo bhi ((List.range' start cnt).foldl (smRow a b blo bhi) st).2 := by
  intro cnt
  induction cnt with
  | zero => intro start st _ _ hb _; exact hb
  | succ n ih =>
    intro start st hs hcnt hb hold
    show SMB alo ahi blo bhi
      (((List.range' (start + 1) n).foldl (smRow a b blo bhi) (smRow a b blo bhi st start))).2
    obtain ⟨hb', hold'⟩ := smRow_inv a b alo ahi blo bhi start st hs (by omega) hb hold
    exact ih (start + 1) _ (by omega) (by omega) hb'
      (fun j hj => hold' j hj)

theorem smPhase1_SMB (a b : List Char) (alo ahi blo bhi : Nat) :
    SMB alo ahi blo bhi (smPhase1 a b alo ahi blo bhi) := by
  have hinit : SMB alo ahi blo bhi (⟨alo, blo, 0⟩ : SMatch) :=
    ⟨le_rfl, le_rfl, fun h => absurd h (Nat.lt_irrefl 0), fun _ => ⟨rfl, rfl⟩⟩
  unfold smPhase1
  by_cases hcase : alo ≤ ahi
  · exact smPhase1_fold a b alo ahi blo bhi (ahi - alo) alo _ le_rfl (by omega) hinit
      (fun j h0 => absurd rfl h0)
  · have h0 : ahi - alo = 0 := by omega
    rw [h0]
    exact hinit

theorem smExtendBackGo_SMB (a b : List Char) (alo blo ahi bhi : Nat) :
    ∀ (fuel : Nat) (m : SMatch), SMB alo ahi blo bhi m →
      SMB alo ahi blo bhi (smExtendBackGo a b alo blo fuel m) := by
  intro fuel
  induction fuel with
  | zero => intro m hm; exact hm
  | succ n ih =>
    intro m hm
    show SMB alo ahi blo bhi
      (if alo < m.besti ∧ blo < m.bestj ∧
          a.getD (m.besti - 1) ' ' = b.getD (m.bestj - 1) ' ' then
        smExtendBackGo a b alo blo n ⟨m.besti - 1, m.bestj - 1, m.size + 1⟩
      else m)
    by_cases hg : alo < m.besti ∧ blo < m.bestj ∧
        a.getD (m.besti - 1) ' ' = b.getD (m.bestj - 1) ' '
    · rw [if_pos hg]
      obtain ⟨hb1, hb2, hb3, hb4⟩ := hm
      refine ih ⟨m.besti - 1, m.bestj - 1, m.size + 1⟩ ?_
      unfold SMB
      dsimp only
      refine ⟨by omega, by omega, fun _ => ?_, fun hz => by omega⟩
      rcases Nat.eq_zero_or_pos m.size with hz | hp
      · have := hb4 hz; omega
      · have := hb3 hp; omega
    · rw [if_neg hg]; exact hm

theorem smExtendFwdGo_SMB (a b : List Char) (alo blo ahi bhi : Nat) :
    ∀ (fuel : Nat) (m : SMatch), SMB alo ahi blo bhi m →
      SMB alo ahi blo bhi (smExtendFwdGo a b ahi bhi fuel m) := by
  intro fuel
  induction fuel with
  | zero => intro m hm; exact hm
  | succ n ih =>
    intro m hm
    show SMB alo ahi blo bhi
      (if m.besti + m.size < ahi ∧ m.bestj + m.size < bhi ∧
          a.getD (m.besti + m.size) ' ' = b.getD (m.bestj + m.size) ' ' then
        smExtendFwdGo a b ahi bhi n ⟨m.besti, m.bestj, m.size + 1⟩
      else m)
    by_cases hg : m.besti + m.size < ahi ∧ m.bestj + m.size < bhi ∧
        a.getD (m.besti + m.size) ' ' = b.getD (m.bestj + m.size) ' '
    · rw [if_pos hg]
      obtain ⟨hb1, hb2, hb3, hb4⟩ := hm
      refine ih ⟨m.besti, m.bestj, m.size + 1⟩ ?_
      unfold SMB
      dsimp only
      exact ⟨by omega, by omega, fun _ => ⟨by omega, by omega⟩, fun hz => by omega⟩
    · rw [if_neg hg]; exact hm

theorem findLongestMatch_SMB (a b : List Char) (alo ahi blo bhi : Nat) :
    SMB alo ahi blo bhi (findLongestMatch a b alo ahi blo bhi) :=
  smExtendFwdGo_SMB a b alo blo ahi bhi _ _
    (smExtendBackGo_SMB a b alo blo ahi bhi _ _ (smPhase1_SMB a b alo ahi blo bhi))

/-- The recursive block decomposition of `get_matching_blocks`, with an
explicit recursion bound.  CPython explores exactly these subranges with an
explicit queue; the sum of the block sizes does not depend on the
exploration order, and the adjacent-block collapsing step preserves it.
The bound is adequate whenever it covers `(ahi - alo) + (bhi - blo)`: each
recursive call shrinks that measure (see `matchedTotalGo_congr`). -/
def matchedTotalGo (a b : List Char) : Nat → Nat → Nat → Nat → Nat → Nat
  | 0, _, _, _, _ => 0
  | fuel + 1, alo, ahi, blo, bhi =>
    if (findLongestMatch a b alo ahi blo bhi).size = 0 then 0
    else
      (findLongestMatch a b alo ahi blo bhi).size
        + (if alo < (findLongestMatch a b alo ahi blo bhi).besti ∧
               blo < (findLongestMatch a b alo ahi blo bhi).bestj then
             matchedTotalGo a b fuel alo (findLongestMatch a b alo ahi blo bhi).besti
               blo (findLongestMatch a b alo ahi blo bhi).bestj
           else 0)
        + (if (findLongestMatch a b alo ahi blo bhi).besti
                 + (findLongestMatch a b alo ahi blo bhi).size < ahi ∧
               (findLongestMatch a b alo ahi blo bhi).bestj
                 + (findLongestMatch a b alo ahi blo bhi).size < bhi then
             matchedTotalGo a b fuel
               ((findLongestMatch a b alo ahi blo bhi).besti
                 + (findLongestMatch a b alo ahi blo bhi).size) ahi
               ((findLongestMatch a b alo ahi blo bhi).bestj
                 + (findLongestMatch a b alo ahi blo bhi).size) bhi
           else 0)

/-- Total number of matched elements of `get_matching_blocks`. -/
def matchedTotal (a b : List Char) (alo ahi blo bhi : Nat) : Nat :=
  matchedTotalGo a b ((ahi - alo) + (bhi - blo)) alo ahi blo bhi

/-- On a degenerate range `find_longest_match` finds nothing. -/
theorem findLongestMatch_size_zero (a b : List Char) {alo ahi blo bhi : Nat}
    (h : ahi ≤ alo ∨ bhi ≤ blo) : (findLongestMatch a b alo ahi blo bhi).size = 0 := by
  obtain ⟨hb1, hb2, hb3, hb4⟩ := findLongestMatch_SMB a b alo ahi blo bhi
  rcases Nat.eq_zero_or_pos (findLongestMatch a b alo ahi blo bhi).size with hz | hp
  · exact hz
  · have := hb3 hp
    omega

/-- The block-decomposition sum does not depend on the recursion bound once
the bound covers the measure `(ahi - alo) + (bhi - blo)`. -/
theorem matchedTotalGo_congr (a b : List Char) :
    ∀ (n fuel fuel' alo ahi blo bhi : Nat), fuel ≤ n →
      (ahi - alo) + (bhi - blo) ≤ fuel → (ahi - alo) + (bhi - blo) ≤ fuel' →
      matchedTotalGo a b fuel alo ahi blo bhi = matchedTotalGo a b fuel' alo ahi blo bhi := by
  intro n
  induction n with
  | zero =>
    intro fuel fuel' alo ahi blo bhi hn hm hm'
    have hf0 : fuel = 0 := by omega
    subst hf0
    have hz : (findLongestMatch a b alo ahi blo bhi).size = 0 :=
      findLongestMatch_size_zero a b (by omega)
    cases fuel' with
    | zero => rfl
    | succ g =>
      show (0 : Nat) = if (findLongestMatch a b alo ahi blo bhi).size = 0 then 0 else _
      rw [if_pos hz]
  | succ n ih =>
    intro fuel fuel' alo ahi blo bhi hn hm hm'
    obtain ⟨hb1, hb2, hb3, hb4⟩ := findLongestMatch_SMB a b alo ahi blo bhi
    cases fuel with
    | zero =>
      have hz : (findLongestMatch a b alo ahi blo bhi).size = 0 :=
        findLongestMatch_size_zero a b (by omega)
      cases fuel' with
      | zero => rfl
      | succ g =>
        show (0 : Nat) = if (findLongestMatch a b alo ahi blo bhi).size = 0 then 0 else _
        rw [if_pos hz]
    | succ f =>
      cases fuel' with
      | zero =>
        have hz : (findLongestMatch a b alo ahi blo bhi).size = 0 :=
          findLongestMatch_size_zero a b (by omega)
        show (if (findLongestMatch a b alo ahi blo bhi).size = 0 then 0 else _) = (0 : Nat)
        rw [if_pos hz]
      | succ g =>
        show (if (findLongestMatch a b alo ahi blo bhi).size = 0 then 0 else _)
          = (if (findLongestMatch a b alo ahi blo bhi).size = 0 then 0 else _)
        by_cases hz : (findLongestMatch a b alo ahi blo bhi).size = 0
        · rw [if_pos hz, if_pos hz]
        · rw [if_neg hz, if_neg hz]
          have hpos := hb3 (Nat.pos_of_ne_zero hz)
          congr 1
          · congr 1
            by_cases h1 : alo < (findLongestMatch a b alo ahi blo bhi).besti ∧
                blo < (findLongestMatch a b alo ahi blo bhi).bestj
            · rw [if_pos h1, if_pos h1]
              exact ih f g alo _ blo _ (by omega) (by omega) (by omega)
            · rw [if_neg h1, if_neg h1]
          · by_cases h2 : (findLongestMatch a b alo ahi blo bhi).besti
                  + (findLongestMatch a b alo ahi blo bhi).size < ahi ∧
                (findLongestMatch a b alo ahi blo bhi).bestj
                  + (findLongestMatch a b alo ahi blo bhi).size < bhi
            · rw [if_pos h2, if_pos h2]
              exact ih f g _ ahi _ bhi (by omega) (by omega) (by omega)
            · rw [if_neg h2, if_neg h2]

/-- The recurrence satisfied by `matchedTotal`: exactly the queue step of
`get_matching_blocks`. -/
theorem matchedTotal_eq (a b : List Char) (alo ahi blo bhi : Nat) :
    matchedTotal a b alo ahi blo bhi =
      if (findLongestMatch a b alo ahi blo bhi).size = 0 then 0
      else
        (findLongestMatch a b alo ahi blo bhi).size
          + (if alo < (findLongestMatch a b alo ahi blo bhi).besti ∧
                 blo < (findLongestMatch a b alo ahi blo bhi).bestj then
               matchedTotal a b alo (findLongestMatch a b alo ahi blo bhi).besti
                 blo (findLongestMatch a b alo ahi blo bhi).bestj
             else 0)
          + (if (findLongestMatch a b alo ahi blo bhi).besti
                   + (findLongestMatch a b alo ahi blo bhi).size < ahi ∧
                 (findLongestMatch a b alo ahi blo bhi).bestj
                   + (findLongestMatch a b alo ahi blo bhi).size < bhi then
               matchedTotal a b
                 ((findLongestMatch a b alo ahi blo bhi).besti
                   + (findLongestMatch a b alo ahi blo bhi).size) ahi
                 ((findLongestMatch a b alo ahi blo bhi).bestj
                   + (findLongestMatch a b alo ahi blo bhi).size) bhi
             else 0) := by
  obtain ⟨hb1, hb2, hb3, hb4⟩ := findLongestMatch_SMB a b alo ahi blo bhi
  unfold matchedTotal
  cases hmeas : (ahi - alo) + (bhi - blo) with
  | zero =>
    have hz : (findLongestMatch a b alo ahi blo bhi).size = 0 :=
      findLongestMatch_size_zero a b (by omega)
    rw [if_pos hz]
    rfl
  | succ n =>
    show (if (findLongestMatch a b alo ahi blo bhi).size = 0 then 0 else _) = _
    by_cases hz : (findLongestMatch a b alo ahi blo bhi).size = 0
    · rw [if_pos hz, if_pos hz]
    · rw [if_neg hz, if_neg hz]
      have hpos := hb3 (Nat.pos_of_ne_zero hz)
      congr 1
      · congr 1
        by_cases h1 : alo < (findLongestMatch a b alo ahi blo bhi).besti ∧
            blo < (findLongestMatch a b alo ahi blo bhi).bestj
        · rw [if_pos h1, if_pos h1]
          exact matchedTotalGo_congr a b n n _ alo _ blo _ le_rfl (by omega) (by omega)
        · rw [if_neg h1, if_neg h1]
      · by_cases h2 : (findLongestMatch a b alo ahi blo bhi).besti
              + (findLongestMatch a b alo ahi blo bhi).size < ahi ∧
            (findLongestMatch a b alo ahi blo bhi).bestj
              + (findLongestMatch a b alo ahi blo bhi).size < bhi
        · rw [if_pos h2, if_pos h2]
          exact matchedTotalGo_congr a b n n _ _ ahi _ bhi le_rfl (by omega) (by omega)
        · rw [if_neg h2, if_neg h2]

/-- The matched total is bounded by the width of each range. -/
theorem matchedTotal_le : ∀ (fuel : Nat) (a b : List Char) (alo ahi blo bhi : Nat),
    (ahi - alo) + (bhi - blo) ≤ fuel →
    matchedTotal a b alo ahi blo bhi ≤ ahi - alo ∧
    matchedTotal a b alo ahi blo bhi ≤ bhi - blo := by
  intro fuel
  induction fuel with
  | zero =>
    intro a b alo ahi blo bhi hf
    have hsz : (findLongestMatch a b alo ahi blo bhi).size = 0 :=
      findLongestMatch_size_zero a b (by omega)
    rw [matchedTotal_eq, if_pos hsz]
    omega
  | succ n ih =>
    intro a b alo ahi blo bhi hf
    rw [matchedTotal_eq]
    obtain ⟨hb1, hb2, hb3, hb4⟩ := findLongestMatch_SMB a b alo ahi blo bhi
    set m := findLongestMatch a b alo ahi blo bhi with hm
    by_cases hsz : m.size = 0
    · rw [if_pos hsz]; omega
    · rw [if_neg hsz]
      have hpos := hb3 (Nat.pos_of_ne_zero hsz)
      by_cases h1 : alo < m.besti ∧ blo < m.bestj
      · rw [if_pos h1]
        have hL := ih a b alo m.besti blo m.bestj (by omega)
        by_cases h2 : m.besti + m.size < ahi ∧ m.bestj + m.size < bhi
        · rw [if_pos h2]
          have hR := ih a b (m.besti + m.size) ahi (m.bestj + m.size) bhi (by omega)
          omega
        · rw [if_neg h2]; omega
      · rw [if_neg h1]
        by_cases h2 : m.besti + m.size < ahi ∧ m.bestj + m.size < bhi
        · rw [if_pos h2]
          have hR := ih a b (m.besti + m.size) ahi (m.bestj + m.size) bhi (by omega)
          omega
        · rw [if_neg h2]; omega

/-- `ratio()` of `SequenceMatcher(None, a, b)` as an exact rational:
`2*M/(la+lb)`, and `1.0` when both sequences are empty
(`difflib._calculate_ratio`). -/
def pyRatio (a b : List Char) : ℚ :=
  if a.length + b.length = 0 then 1
  else (2 * (matchedTotal a b 0 a.length 0 b.length : ℚ))
    / ((a.length : ℚ) + (b.length : ℚ))

/-- `similarity_score(s1, s2)` (source line 183):
`SequenceMatcher(None, s1.lower(), s2.lower()).ratio()`. -/
def similarityScore (s1 s2 : String) : ℚ :=
  pyRatio (lowerChars s1) (lowerChars s2)

/-! ### `ratio()` is `1` on identical inputs

For `a = b = s` over the full range, every best candidate produced by the
`j2len` pass lies on the diagonal (`besti = bestj`), because any run ending
at `(i, j)` is dominated by the diagonal run ending at `(min i j, min i j)`,
which is scanned no later.  The extension loops then grow any diagonal
candidate to the whole range, so `find_longest_match` returns
`(0, 0, len s)` and the ratio is `1`. -/

theorem mem_smB2j {b : List Char} {c : Char} {j : Nat} :
    j ∈ smB2j b c ↔ smPopular b c = false ∧ j < b.length ∧ b.getD j ' ' = c := by
  unfold smB2j smIndices
  by_cases hp : smPopular b c
  · simp [hp]
  · simp [hp, List.mem_filter, List.mem_range]

theorem takeWhile_of_all {α : Type} {p : α → Bool} :
    ∀ (l : List α), (∀ x ∈ l, p x = true) → l.takeWhile p = l
  | [], _ => rfl
  | a :: t, h => by
    rw [List.takeWhile_cons, if_pos (h a (List.mem_cons_self a t))]
    rw [takeWhile_of_all t (fun x hx => h x (List.mem_cons_of_mem a hx))]

theorem smRowJs_full (b : List Char) (c : Char) :
    smRowJs b 0 b.length c = smB2j b c := by
  unfold smRowJs
  rw [takeWhile_of_all _ (fun x hx => by
    simp only [decide_eq_true_eq]
    exact (mem_smB2j.mp hx).2.1)]
  rw [List.filter_eq_self.mpr (fun x _ => by simp)]

/-- The exact value of the `j2len` entry at `(row i, index j)` when both
sequences are `s` and the range is full: the length of the run of matches
ending at `(i, j)`. -/
def diagRun (s : List Char) : Nat → Nat → Nat
  | 0, j => if j ∈ smB2j s (s.getD 0 ' ') then 1 else 0
  | i + 1, j =>
    if j ∈ smB2j s (s.getD (i + 1) ' ') then
      (if j = 0 then 0 else diagRun s i (j - 1)) + 1
    else 0

/-- The `j2len` function carried into row `i` (constantly `0` for the first
row, the previous row's run values afterwards). -/
def rowPrev (s : List Char) : Nat → Nat → Nat
  | 0, _ => 0
  | i + 1, j => diagRun s i j

theorem diagRun_zero (s : List Char) (j : Nat) :
    diagRun s 0 j = if j ∈ smB2j s (s.getD 0 ' ') then 1 else 0 := rfl

theorem diagRun_succ (s : List Char) (i j : Nat) :
    diagRun s (i + 1) j =
      if j ∈ smB2j s (s.getD (i + 1) ' ') then
        (if j = 0 then 0 else diagRun s i (j - 1)) + 1
      else 0 := rfl

theorem diagRun_eq_zero {s : List Char} {i j : Nat}
    (h : j ∉ smB2j s (s.getD i ' ')) : diagRun s i j = 0 := by
  cases i with
  | zero => rw [diagRun_zero, if_neg h]
  | succ i => rw [diagRun_succ, if_neg h]

/-- The `k` computed by `smStep` at a processed index equals the run value. -/
theorem kval_eq_diagRun {s : List Char} {i j : Nat}
    (hj : j ∈ smB2j s (s.getD i ' ')) (old : Nat → Nat)
    (hold : ∀ x, old x = rowPrev s i x) :
    (if j = 0 then 0 else old (j - 1)) + 1 = diagRun s i j := by
  cases i with
  | zero =>
    rw [diagRun_zero, if_pos hj]
    by_cases h0 : j = 0
    · rw [if_pos h0]
    · rw [if_neg h0, hold (j - 1)]; rfl
  | succ i =>
    rw [diagRun_succ, if_pos hj]
    by_cases h0 : j = 0
    · rw [if_pos h0, if_pos h0]
    · rw [if_neg h0, if_neg h0, hold (j - 1)]; rfl

/-- If row `i` matches index `j` then it also matches index `i`
(the diagonal), provided `i` is inside the sequence. -/
theorem diagMatch_row {s : List Char} {i j : Nat} (hin : i < s.length)
    (h : j ∈ smB2j s (s.getD i ' ')) : i ∈ smB2j s (s.getD i ' ') := by
  obtain ⟨hp, _, _⟩ := mem_smB2j.mp h
  exact mem_smB2j.mpr ⟨hp, hin, rfl⟩

/-- If row `i` matches index `j` then row `j` matches index `j`. -/
theorem diagMatch_col {s : List Char} {i j : Nat}
    (h : j ∈ smB2j s (s.getD i ' ')) : j ∈ smB2j s (s.getD j ' ') := by
  obtain ⟨hp, hjn, hc⟩ := mem_smB2j.mp h
  rw [hc]
  exact mem_smB2j.mpr ⟨hp, hjn, hc⟩

/-- Diagonal dominance, row side: a run ending at `(i, j)` with `i ≤ j` is no
longer than the diagonal run ending at `(i, i)`. -/
theorem diagRun_le_row (s : List Char) : ∀ i j, i ≤ j → diagRun s i j ≤ diagRun s i i := by
  intro i
  induction i with
  | zero =>
    intro j _
    by_cases hj : j ∈ smB2j s (s.getD 0 ' ')
    · have h0n : (0 : Nat) < s.length := Nat.lt_of_le_of_lt (Nat.zero_le j) (mem_smB2j.mp hj).2.1
      have hd : 0 ∈ smB2j s (s.getD 0 ' ') := diagMatch_row h0n hj
      rw [diagRun_zero, diagRun_zero, if_pos hj, if_pos hd]
    · rw [diagRun_eq_zero hj]; exact Nat.zero_le _
  | succ i ih =>
    intro j hij
    by_cases hj : j ∈ smB2j s (s.getD (i + 1) ' ')
    · have hin : i + 1 < s.length := Nat.lt_of_le_of_lt hij (mem_smB2j.mp hj).2.1
      have hd : i + 1 ∈ smB2j s (s.getD (i + 1) ' ') := diagMatch_row hin hj
      have hj0 : j ≠ 0 := by omega
      have hrec : diagRun s (i + 1) j = diagRun s i (j - 1) + 1 := by
        rw [diagRun_succ, if_pos hj, if_neg hj0]
      have hdiag : diagRun s (i + 1) (i + 1) = diagRun s i i + 1 := by
        rw [diagRun_succ, if_pos hd, if_neg (Nat.succ_ne_zero i)]
        simp
      rw [hrec, hdiag]
      have := ih (j - 1) (by omega)
      omega
    · rw [diagRun_eq_zero hj]; exact Nat.zero_le _

/-- Diagonal dominance, column side: a run ending at `(i, j)` with `j ≤ i` is
no longer than the diagonal run ending at `(j, j)`. -/
theorem diagRun_le_col (s : List Char) : ∀ j i, j ≤ i → diagRun s i j ≤ diagRun s j j := by
  intro j
  induction j with
  | zero =>
    intro i _
    by_cases hj : 0 ∈ smB2j s (s.getD i ' ')
    · have hd : 0 ∈ smB2j s (s.getD 0 ' ') := diagMatch_col hj
      have h1 : diagRun s i 0 ≤ 1 := by
        cases i with
        | zero => rw [diagRun_zero, if_pos hj]
        | succ i => rw [diagRun_succ, if_pos hj, if_pos rfl]
      have h2 : diagRun s 0 0 = 1 := by rw [diagRun_zero, if_pos hd]
      omega
    · rw [diagRun_eq_zero hj]; exact Nat.zero_le _
  | succ j ih =>
    intro i hij
    obtain ⟨i, rfl⟩ : ∃ i', i = i' + 1 := ⟨i - 1, by omega⟩
    by_cases hj : j + 1 ∈ smB2j s (s.getD (i + 1) ' ')
    · have hd : j + 1 ∈ smB2j s (s.getD (j + 1) ' ') := diagMatch_col hj
      have hrec : diagRun s (i + 1) (j + 1) = diagRun s i j + 1 := by
        rw [diagRun_succ, if_pos hj, if_neg (Nat.succ_ne_zero j)]
        simp
      have hdiag : diagRun s (j + 1) (j + 1) = diagRun s j j + 1 := by
        rw [diagRun_succ, if_pos hd, if_neg (Nat.succ_ne_zero j)]
        simp
      rw [hrec, hdiag]
      have := ih i (by omega)
      omega
    · rw [diagRun_eq_zero hj]; exact Nat.zero_le _

/-- If every index a sublist of the row would process has its run value at
most the current best size, the inner loop leaves the best candidate
unchanged. -/
theorem smStep_fold_noTrigger (old : Nat → Nat) (i : Nat) :
    ∀ (t : List Nat) (st : (Nat → Nat) × SMatch),
      (∀ j ∈ t, (if j = 0 then 0 else old (j - 1)) + 1 ≤ st.2.size) →
      (t.foldl (smStep old i) st).2 = st.2 := by
  intro t
  induction t with
  | nil => intro st _; rfl
  | cons j rest ih =>
    intro st hk
    simp only [List.foldl_cons]
    have hkj := hk j (List.mem_cons_self _ _)
    have hstep : (smStep old i st j).2 = st.2 := by
      unfold smStep
      simp only [if_neg (show ¬ st.2.size < (if j = 0 then 0 else old (j - 1)) + 1 by omega)]
    rw [ih (smStep old i st j)
      (fun x hx => by rw [hstep]; exact hk x (List.mem_cons_of_mem _ hx))]
    exact hstep

/-- Pointwise value of the fresh `j2len` after the inner loop. -/
theorem smStep_fold_j2len (old : Nat → Nat) (i : Nat) :
    ∀ (t : List Nat) (st : (Nat → Nat) × SMatch) (x : Nat),
      (t.foldl (smStep old i) st).1 x =
        if x ∈ t then (if x = 0 then 0 else old (x - 1)) + 1 else st.1 x := by
  intro t
  induction t with
  | nil => intro st x; simp
  | cons j rest ih =>
    intro st x
    simp only [List.foldl_cons]
    rw [ih]
    have hstep1 : (smStep old i st j).1 x =
        if x = j then (if j = 0 then 0 else old (j - 1)) + 1 else st.1 x := by
      unfold smStep
      by_cases hlt : st.2.size < (if j = 0 then 0 else old (j - 1)) + 1
      · simp only [if_pos hlt]
      · simp only [if_neg hlt]
    by_cases hxr : x ∈ rest
    · rw [if_pos hxr, if_pos (List.mem_cons_of_mem _ hxr)]
    · rw [if_neg hxr, hstep1]
      by_cases hxj : x = j
      · subst hxj
        rw [if_pos rfl, if_pos (List.mem_cons_self _ _)]
      · rw [if_neg hxj, if_neg (by simp [List.mem_cons, hxj, hxr])]

/-- Decomposition of `range n` around an interior point. -/
theorem range_split {n i : Nat} (h : i < n) :
    List.range n = List.range' 0 i ++ i :: List.range' (i + 1) (n - i - 1) := by
  rw [List.range_eq_range']
  have hsp : List.range' 0 n = List.range' 0 i ++ List.range' i (n - i) := by
    have h2 := List.range'_append 0 i (n - i) 1
    simp only [Nat.one_mul, Nat.zero_add] at h2
    rw [h2]
    congr 1
    omega
  rw [hsp]
  congr 1
  rw [show n - i = (n - i - 1) + 1 by omega]
  rfl

theorem smStep_snd_pos (old : Nat → Nat) (i : Nat) (st : (Nat → Nat) × SMatch) (j : Nat)
    (h : st.2.size < (if j = 0 then 0 else old (j - 1)) + 1) :
    (smStep old i st j).2 =
      ⟨i + 1 - ((if j = 0 then 0 else old (j - 1)) + 1),
       j + 1 - ((if j = 0 then 0 else old (j - 1)) + 1),
       (if j = 0 then 0 else old (j - 1)) + 1⟩ := by
  unfold smStep
  simp only [if_pos h]

theorem smStep_snd_neg (old : Nat → Nat) (i : Nat) (st : (Nat → Nat) × SMatch) (j : Nat)
    (h : ¬ st.2.size < (if j = 0 then 0 else old (j - 1)) + 1) :
    (smStep old i st j).2 = st.2 := by
  unfold smStep
  simp only [if_neg h]

/-- Processing a row list `A ++ i :: B` keeps the best candidate diagonal
when no index of `A` can trigger an update and no index of `B` beats the
diagonal index `i` itself. -/
theorem smFold_diag_core (old : Nat → Nat) (i : Nat) (A B : List Nat)
    (st0 : (Nat → Nat) × SMatch) (hdiag : st0.2.besti = st0.2.bestj)
    (hA : ∀ j ∈ A, (if j = 0 then 0 else old (j - 1)) + 1 ≤ st0.2.size)
    (hB : ∀ j ∈ B, (if j = 0 then 0 else old (j - 1)) + 1 ≤
      (if i = 0 then 0 else old (i - 1)) + 1) :
    ((A ++ i :: B).foldl (smStep old i) st0).2.besti
        = ((A ++ i :: B).foldl (smStep old i) st0).2.bestj ∧
    st0.2.size ≤ ((A ++ i :: B).foldl (smStep old i) st0).2.size ∧
    (if i = 0 then 0 else old (i - 1)) + 1 ≤
      ((A ++ i :: B).foldl (smStep old i) st0).2.size := by
  rw [List.foldl_append, List.foldl_cons]
  have hstA : (A.foldl (smStep old i) st0).2 = st0.2 :=
    smStep_fold_noTrigger old i A st0 hA
  by_cases hlt : (A.foldl (smStep old i) st0).2.size <
      (if i = 0 then 0 else old (i - 1)) + 1
  · -- trigger at the diagonal index: the best becomes a diagonal block
    have hlt0 : st0.2.size < (if i = 0 then 0 else old (i - 1)) + 1 := hstA ▸ hlt
    have hstB := smStep_snd_pos old i (A.foldl (smStep old i) st0) i hlt
    rw [smStep_fold_noTrigger old i B _
      (fun j hj => by rw [hstB]; dsimp only; exact hB j hj), hstB]
    refine ⟨rfl, ?_, ?_⟩ <;> dsimp only <;> omega
  · -- no trigger: the best is unchanged
    have hlt0 : ¬ st0.2.size < (if i = 0 then 0 else old (i - 1)) + 1 := hstA ▸ hlt
    have hstB : (smStep old i (A.foldl (smStep old i) st0) i).2 = st0.2 := by
      rw [smStep_snd_neg old i _ i hlt]
      exact hstA
    rw [smStep_fold_noTrigger old i B _
      (fun j hj => by rw [hstB]; exact le_trans (hB j hj) (by omega)), hstB]
    exact ⟨hdiag, le_rfl, by omega⟩

theorem self_mem_smB2j {s : List Char} {i : Nat} (hin : i < s.length)
    (hpf : smPopular s (s.getD i ' ') = false) : i ∈ smB2j s (s.getD i ' ') :=
  mem_smB2j.mpr ⟨hpf, hin, rfl⟩

/-- One row of the `j2len` pass for identical sequences over the full range:
the fresh `j2len` holds exactly the run values of row `i`, the best stays
diagonal, and its size covers every diagonal run of rows `≤ i`. -/
theorem smRow_diag (s : List Char) (i : Nat) (hin : i < s.length)
    (st : (Nat → Nat) × SMatch)
    (hOJ : ∀ x, st.1 x = rowPrev s i x)
    (hdiag : st.2.besti = st.2.bestj)
    (hOB : ∀ i' < i, diagRun s i' i' ≤ st.2.size) :
    (∀ x, (smRow s s 0 s.length st i).1 x = rowPrev s (i + 1) x) ∧
    (smRow s s 0 s.length st i).2.besti = (smRow s s 0 s.length st i).2.bestj ∧
    (∀ i' < i + 1, diagRun s i' i' ≤ (smRow s s 0 s.length st i).2.size) := by
  unfold smRow
  rw [smRowJs_full]
  have hptw : ∀ x,
      ((smB2j s (s.getD i ' ')).foldl (smStep st.1 i) ((fun _ => 0), st.2)).1 x
        = rowPrev s (i + 1) x := by
    intro x
    rw [smStep_fold_j2len]
    show (if x ∈ smB2j s (s.getD i ' ') then _ else _) = diagRun s i x
    by_cases hx : x ∈ smB2j s (s.getD i ' ')
    · rw [if_pos hx]
      exact kval_eq_diagRun hx st.1 hOJ
    · rw [if_neg hx]
      exact (diagRun_eq_zero hx).symm
  refine ⟨hptw, ?_⟩
  by_cases hpop : smPopular s (s.getD i ' ') = true
  · -- a purged (popular) row character: the row list is empty
    have hempty : smB2j s (s.getD i ' ') = [] := by unfold smB2j; rw [if_pos hpop]
    rw [hempty]
    simp only [List.foldl_nil]
    refine ⟨hdiag, ?_⟩
    intro i' hi'
    rcases Nat.lt_or_ge i' i with h | h
    · exact hOB i' h
    · have hii : i' = i := by omega
      subst hii
      have hnm : i' ∉ smB2j s (s.getD i' ' ') := by rw [hempty]; exact List.not_mem_nil _
      rw [diagRun_eq_zero hnm]
      exact Nat.zero_le _
  · have hpf : smPopular s (s.getD i ' ') = false := by simpa using hpop
    have hiMem : i ∈ smB2j s (s.getD i ' ') := self_mem_smB2j hin hpf
    have hsplit : smB2j s (s.getD i ' ') =
        (List.range' 0 i).filter (fun j => s.getD j ' ' == s.getD i ' ')
          ++ i :: (List.range' (i + 1) (s.length - i - 1)).filter
              (fun j => s.getD j ' ' == s.getD i ' ') := by
      unfold smB2j smIndices
      rw [if_neg hpop, range_split hin, List.filter_append,
        List.filter_cons_of_pos (by simp)]
    have hAfact : ∀ j ∈ (List.range' 0 i).filter
        (fun j => s.getD j ' ' == s.getD i ' '),
        j < i ∧ j ∈ smB2j s (s.getD i ' ') := by
      intro j hj
      have hr := List.mem_of_mem_filter hj
      have hp := List.of_mem_filter hj
      simp only [beq_iff_eq] at hp
      have hji : j < i := by
        have := List.mem_range'_1.mp hr
        omega
      exact ⟨hji, mem_smB2j.mpr ⟨hpf, by omega, hp⟩⟩
    have hBfact : ∀ j ∈ (List.range' (i + 1) (s.length - i - 1)).filter
        (fun j => s.getD j ' ' == s.getD i ' '),
        i ≤ j ∧ j ∈ smB2j s (s.getD i ' ') := by
      intro j hj
      have hr := List.mem_of_mem_filter hj
      have hp := List.of_mem_filter hj
      simp only [beq_iff_eq] at hp
      have hji := List.mem_range'_1.mp hr
      exact ⟨by omega, mem_smB2j.mpr ⟨hpf, by omega, hp⟩⟩
    have hkvi := kval_eq_diagRun hiMem st.1 hOJ
    rw [hsplit]
    obtain ⟨hres1, hres2, hres3⟩ := smFold_diag_core st.1 i _ _ ((fun _ => 0), st.2)
      hdiag
      (fun j hj => by
        obtain ⟨hji, hjm⟩ := hAfact j hj
        rw [kval_eq_diagRun hjm st.1 hOJ]
        exact le_trans (diagRun_le_col s j i (by omega)) (hOB j hji))
      (fun j hj => by
        obtain ⟨hji, hjm⟩ := hBfact j hj
        rw [kval_eq_diagRun hjm st.1 hOJ, hkvi]
        exact diagRun_le_row s i j hji)
    refine ⟨hres1, ?_⟩
    intro i' hi'
    rcases Nat.lt_or_ge i' i with h | h
    · exact le_trans (hOB i' h) hres2
    · have hii : i' = i := by omega
      subst hii
      rw [← hkvi]
      exact hres3

theorem smPhase1_diag_fold (s : List Char) :
    ∀ (cnt start : Nat) (st : (Nat → Nat) × SMatch),
      start + cnt ≤ s.length →
      (∀ x, st.1 x = rowPrev s start x) →
      st.2.besti = st.2.bestj →
      (∀ i' < start, diagRun s i' i' ≤ st.2.size) →
      ((List.range' start cnt).foldl (smRow s s 0 s.length) st).2.besti
        = ((List.range' start cnt).foldl (smRow s s 0 s.length) st).2.bestj := by
  intro cnt
  induction cnt with
  | zero => intro start st _ _ hdiag _; exact hdiag
  | succ n ih =>
    intro start st hcnt hOJ hdiag hOB
    show ((List.range' (start + 1) n).foldl (smRow s s 0 s.length)
        (smRow s s 0 s.length st start)).2.besti = _
    obtain ⟨hOJ', hdiag', hOB'⟩ :=
      smRow_diag s start (by omega) st hOJ hdiag hOB
    exact ih (start + 1) _ (by omega) hOJ' hdiag' hOB'

/-- For identical sequences over the full range, the `j2len` pass produces a
diagonal best candidate. -/
theorem smPhase1_diag (s : List Char) :
    (smPhase1 s s 0 s.length 0 s.length).besti
      = (smPhase1 s s 0 s.length 0 s.length).bestj := by
  unfold smPhase1
  rw [Nat.sub_zero]
  exact smPhase1_diag_fold s s.length 0 ((fun _ => 0), ⟨0, 0, 0⟩) (by omega)
    (fun x => rfl) rfl (fun i' hi' => absurd hi' (Nat.not_lt_zero i'))

/-- The backward extension grows a diagonal candidate to the start. -/
theorem smExtendBackGo_diag (s : List Char) :
    ∀ (p sz : Nat), smExtendBackGo s s 0 0 p ⟨p, p, sz⟩ = ⟨0, 0, sz + p⟩ := by
  intro p
  induction p with
  | zero =>
    intro sz
    show (⟨0, 0, sz⟩ : SMatch) = ⟨0, 0, sz + 0⟩
    congr 1
  | succ p ih =>
    intro sz
    show (if 0 < p + 1 ∧ 0 < p + 1 ∧
          s.getD (p + 1 - 1) ' ' = s.getD (p + 1 - 1) ' ' then
        smExtendBackGo s s 0 0 p ⟨p + 1 - 1, p + 1 - 1, sz + 1⟩
      else ⟨p + 1, p + 1, sz⟩) = ⟨0, 0, sz + (p + 1)⟩
    rw [if_pos ⟨Nat.succ_pos p, Nat.succ_pos p, rfl⟩]
    show smExtendBackGo s s 0 0 p ⟨p, p, sz + 1⟩ = _
    rw [ih (sz + 1)]
    congr 1
    omega

/-- The forward extension grows a diagonal candidate to the end. -/
theorem smExtendFwdGo_diag (s : List Char) :
    ∀ (fuel K : Nat), K + fuel = s.length →
      smExtendFwdGo s s s.length s.length fuel ⟨0, 0, K⟩ = ⟨0, 0, s.length⟩ := by
  intro fuel
  induction fuel with
  | zero =>
    intro K h
    have hK : K = s.length := by omega
    subst hK
    rfl
  | succ n ih =>
    intro K h
    show (if 0 + K < s.length ∧ 0 + K < s.length ∧
          s.getD (0 + K) ' ' = s.getD (0 + K) ' ' then
        smExtendFwdGo s s s.length s.length n ⟨0, 0, K + 1⟩
      else ⟨0, 0, K⟩) = ⟨0, 0, s.length⟩
    rw [if_pos ⟨by omega, by omega, rfl⟩]
    exact ih (K + 1) (by omega)

/-- `find_longest_match` on two copies of the same sequence over the full
range returns the whole diagonal. -/
theorem findLongestMatch_self (s : List Char) :
    findLongestMatch s s 0 s.length 0 s.length = ⟨0, 0, s.length⟩ := by
  unfold findLongestMatch
  have hdiag := smPhase1_diag s
  obtain ⟨hb1, hb2, hb3, hb4⟩ := smPhase1_SMB s s 0 s.length 0 s.length
  rcases hps : smPhase1 s s 0 s.length 0 s.length with ⟨p, q, sz⟩
  rw [hps] at hdiag hb1 hb2 hb3 hb4
  dsimp only at hdiag hb1 hb2 hb3 hb4
  subst hdiag
  show smExtendFwd s s s.length s.length (smExtendBackGo s s 0 0 p ⟨p, p, sz⟩) = _
  rw [smExtendBackGo_diag s p sz]
  have hle : sz + p ≤ s.length := by
    rcases Nat.eq_zero_or_pos sz with hz | hpos
    · have := hb4 hz
      omega
    · have := hb3 hpos
      omega
  show smExtendFwdGo s s s.length s.length (s.length - (0 + (sz + p))) ⟨0, 0, sz + p⟩ = _
  rw [Nat.zero_add]
  exact smExtendFwdGo_diag s (s.length - (sz + p)) (sz + p) (by omega)

/-- The matched total of two copies of the same sequence is its length. -/
theorem matchedTotal_self (s : List Char) :
    matchedTotal s s 0 s.length 0 s.length = s.length := by
  rcases Nat.eq_zero_or_pos s.length with h0 | hpos
  · rw [matchedTotal_eq, findLongestMatch_self, if_pos (by dsimp only; omega)]
    omega
  · rw [matchedTotal_eq, findLongestMatch_self, if_neg (by dsimp only; omega),
      if_neg (by dsimp only; omega), if_neg (by dsimp only; omega)]
    dsimp only
    omega

/-- `ratio()` of a sequence with itself is `1`. -/
theorem pyRatio_self (a : List Char) : pyRatio a a = 1 := by
  unfold pyRatio
  rcases Nat.eq_zero_or_pos a.length with h0 | hpos
  · rw [if_pos (by omega)]
  · rw [if_neg (by omega), matchedTotal_self]
    have hne : ((a.length : ℚ) + (a.length : ℚ)) ≠ 0 := by
      have : (0 : ℚ) < (a.length : ℚ) + (a.length : ℚ) := by
        have : (0 : ℚ) < (a.length : ℚ) := by exact_mod_cast hpos
        linarith
      linarith
    field_simp
    ring

theorem pyRatio_nonneg (a b : List Char) : 0 ≤ pyRatio a b := by
  unfold pyRatio
  split
  · norm_num
  · positivity

theorem pyRatio_le_one (a b : List Char) : pyRatio a b ≤ 1 := by
  unfold pyRatio
  split
  · norm_num
  · rename_i hne
    have hM := matchedTotal_le (a.length + b.length) a b 0 a.length 0 b.length (by omega)
    have hnum : 2 * matchedTotal a b 0 a.length 0 b.length ≤ a.length + b.length := by omega
    have hd : (0 : ℚ) < (a.length : ℚ) + (b.length : ℚ) := by
      have hp : 0 < a.length + b.length := Nat.pos_of_ne_zero hne
      exact_mod_cast hp
    rw [div_le_one hd]
    exact_mod_cast hnum

theorem similarityScore_nonneg (s1 s2 : String) : 0 ≤ similarityScore s1 s2 :=
  pyRatio_nonneg _ _

theorem similarityScore_le_one (s1 s2 : String) : similarityScore s1 s2 ≤ 1 :=
  pyRatio_le_one _ _

/-- Case-folded-identical strings score exactly `1`. -/
theorem similarityScore_casefold_eq {s1 s2 : String}
    (h : lowerChars s1 = lowerChars s2) : similarityScore s1 s2 = 1 := by
  unfold similarityScore
  rw [h]
  exact pyRatio_self _

/-! ## Data model and store-facing operations

DynamoDB calls are modelled by explicit `Except StoreErr _` outcome
parameters (a `botocore.exceptions.ClientError` is a `StoreErr`).  Functions
that can let an exception escape return `Except StoreErr _`; a caught and
logged exception produces a normal `.ok` value, mirroring the `try/except`
blocks of the source. -/

/-- A store failure (`botocore` `ClientError`). -/
structure StoreErr where
  msg : String
deriving Repr, DecidableEq

/-- A row of the `FAQTable` (shape written by `save_new_faq`,
lines 232-237). -/
structure Faq where
  faq_id : String
  question : String
  answer : String
deriving Repr, DecidableEq

/-- The best-match dictionary assembled by `quick_faq_lookup`
(lines 215-220). -/
structure FaqMatch where
  faq_id : String
  question : String
  answer : String
  score : ℚ
deriving Repr, DecidableEq

def faqMatchOf (userText : String) (f : Faq) : FaqMatch :=
  ⟨f.faq_id, f.question, f.answer, similarityScore userText f.question⟩

/-- One iteration of the scan loop of `quick_faq_lookup` (lines 204-220):
the running best is replaced on strict improvement
(`if score > best_score`). -/
def faqScanStep (userText : String) (st : Option FaqMatch × ℚ) (faq : Faq) :
    Option FaqMatch × ℚ :=
  if st.2 < similarityScore userText faq.question then
    (some (faqMatchOf userText faq), similarityScore userText faq.question)
  else st

/-- The scan loop of `quick_faq_lookup` (lines 201-220): running best entry
(`best = None`) and best score (`best_score = 0.0`). -/
def faqScan (userText : String) (faqs : List Faq) : Option FaqMatch × ℚ :=
  faqs.foldl (faqScanStep userText) (none, 0)

/-- `quick_faq_lookup(user_text)` (lines 187-227).  The outcome of
`faq_table.scan()` is a parameter; a `ClientError` there is caught, logged
and turned into a plain `None` return (lines 193-195).  The `Except`
result type records whether a store failure escapes to the caller — it
never does. -/
def quickFaqLookup (threshold : ℚ) (scan : Except StoreErr (List Faq))
    (userText : String) : Except StoreErr (Option FaqMatch) :=
  match scan with
  | .error _ => .ok none
  | .ok faqs =>
    if faqs.isEmpty then .ok none
    else
      match faqScan userText faqs with
      | (some best, _) =>
        if threshold ≤ best.score then .ok (some best) else .ok none
      | (none, _) => .ok none

/-- `save_new_faq(question, answer="")` (lines 229-244).  The fresh
`"faq-" + uuid` identifier and the `put_item` outcome are parameters; a
`ClientError` is caught, logged, and the empty string returned
(lines 242-244). -/
def saveNewFaq (newId question answer : String)
    (put : Except StoreErr Unit) : Except StoreErr String :=
  match put with
  | .ok _ => .ok newId
  | .error _ => .ok ""

/-- `save_message(...)` (lines 150-167): a `ClientError` from `put_item` is
logged and re-raised (line 167). -/
def saveMessage (put : Except StoreErr Unit) : Except StoreErr Unit :=
  match put with
  | .ok _ => .ok ()
  | .error e => .error e

/-- The seed FAQ list `SEED_FAQS` (lines 59-140), as (question, answer)
pairs. -/
def seedFaqPairs : List (String × String) :=
  [("How do I track my order?",
    "You can track your order anytime from your account under 'Orders & Returns'. You'll get real-time updates via email at each stage: confirmed, shipped, and delivered. Most orders arrive within 5-7 business days with standard shipping."),
   ("What is your return policy?",
    "We offer 30-day returns on most items from the date of purchase. Electronics have a 15-day return window. Items must be unused, in original packaging, and in resellable condition. Refunds are processed within 5-10 business days after we receive your return."),
   ("How long does shipping take?",
    "Standard shipping takes 5-7 business days. Express shipping (2-3 business days) is available for $9.99. Free shipping applies to orders over $50 with standard shipping. Shipping times exclude weekends and holidays."),
   ("Do you offer free shipping?",
    "Yes! Orders totaling $50 or more qualify for free standard shipping (5-7 business days). Orders under $50 have a $5.99 shipping fee. Express shipping is always $9.99, regardless of order total."),
   ("How do I initiate a return?",
    "Go to 'Orders & Returns' in your account, select the item, and choose a return reason. Print the prepaid return label and ship it back to us. Once we receive and inspect your return, we'll process your refund within 5-10 business days."),
   ("How long does a refund take?",
    "Refunds are processed within 5-10 business days after we receive and inspect your returned item. The time for the refund to appear in your account may vary depending on your bank (typically 3-5 additional business days)."),
   ("What if my item is damaged or defective?",
    "We're sorry! Please contact us immediately with photos of the damage. We'll either send you a replacement at no cost or process a full refund. For most items, we can have a replacement shipped within 2-3 business days."),
   ("Can I change or cancel my order?",
    "If your order hasn't shipped yet, you can cancel it from your account. Once it ships, you'll need to initiate a return. Contact our support team if you need to change the shipping address—we can sometimes update it before it ships."),
   ("Do you have a warranty on electronics?",
    "Yes! All electronics come with a 1-year manufacturer warranty covering defects. This covers hardware failures but not accidental damage. To file a warranty claim, contact our support team with your order number and photos of the issue."),
   ("What payment methods do you accept?",
    "We accept all major credit cards (Visa, MasterCard, American Express), debit cards, PayPal, Apple Pay, and Google Pay. Payment information is encrypted and secure. If you have issues during checkout, our support team can help troubleshoot."),
   ("Is my personal information safe?",
    "Absolutely. We use bank-level encryption for all transactions and never share your information with third parties. Your data is secure whether shopping on our website or app. If you have security concerns, contact our support team immediately."),
   ("How do I create an account?",
    "Click 'Sign Up' at the top of the page or in the app. Enter your email and create a password. You can optionally add your shipping and billing addresses. Create an account to save favorites, track orders, and get personalized recommendations."),
   ("I forgot my password. What do I do?",
    "Click 'Forgot Password?' on the login page. Enter your email address, and we'll send you a reset link. Check your spam folder if you don't see it within a few minutes. If you continue having issues, our support team can help verify your identity and reset it."),
   ("Can I change my shipping address after ordering?",
    "If your order hasn't shipped yet, you can often change the address from your account. Once it ships, the address cannot be changed. If you need help, contact us immediately with your order number—we may be able to update it in time."),
   ("Why was my order delayed?",
    "Delays can occur due to payment verification, inventory updates, or carrier issues. You'll receive an email notification if there's any delay. You can check your order status anytime in your account. For extended delays, contact our support team—we may offer a discount or refund."),
   ("Do you have a loyalty or rewards program?",
    "Yes! Members earn 1 point per $1 spent, redeemable for discounts. Sign up for free in your account settings. Plus, you'll get exclusive early access to sales and special member-only deals. Membership benefits include faster shipping on select items."),
   ("How do I use a discount code?",
    "Enter your code in the 'Discount Code' field during checkout, before payment. The discount will apply to eligible items. Some codes may have restrictions (minimum purchase, specific categories, or new customers only). If your code doesn't work, contact us with the code details."),
   ("What should I do if I was charged twice?",
    "Double charges are rare but can happen due to system issues. Check your account transactions to confirm. If you were genuinely charged twice, contact our support team immediately with your order numbers. We'll investigate and issue a refund if needed within 2-3 business days."),
   ("Can I purchase as a guest without an account?",
    "Yes, guest checkout is available. However, creating an account gives you many benefits: order tracking, saved addresses, favorites, and access to your order history. Creating an account takes just 30 seconds and makes future shopping faster."),
   ("What if an item is out of stock?",
    "Out-of-stock items will show as unavailable at checkout. You can add items to your Wishlist to be notified when they're back in stock. For high-demand items, stock can change quickly. Check back soon or contact us if you need help finding a similar alternative.")]

/-- `init_seed_faqs()` (lines 246-256): scan for the row count; when the
table is empty every seed pair is written (each `save_new_faq` absorbing
its own failure); any exception from the scan is caught and suppressed
(lines 255-256).  Returns the writes attempted. -/
def initSeedFaqs (scanCount : Except StoreErr Nat) :
    Except StoreErr (List (String × String)) :=
  match scanCount with
  | .error _ => .ok []
  | .ok 0 => .ok seedFaqPairs
  | .ok (_ + 1) => .ok []

/-- An item of the `ChatSessions` table as consumed by the prompt builder
(shape written by `save_message`, lines 152-159). -/
structure HistItem where
  message_ts : String
  role : String
  text : String
deriving Repr, DecidableEq

/-- `sorted(items, key=lambda x: x["message_ts"])` (line 178): Python's
stable ascending sort by the timestamp string. -/
def sortByTs (items : List HistItem) : List HistItem :=
  items.mergeSort (fun x y => decide (x.message_ts ≤ y.message_ts))

/-- `get_recent_history(session_id, limit)` (lines 169-181): the DynamoDB
query outcome is a parameter (the store hands back the most recent items in
unspecified wire order); a `ClientError` is caught, logged, and the empty
list returned (lines 179-181); otherwise the items are re-sorted by
timestamp. -/
def getRecentHistory (query : Except StoreErr (List HistItem)) : List HistItem :=
  match query with
  | .error _ => []
  | .ok items => sortByTs items

/-- Python's `sep.join(parts)`. -/
def pyJoin (sep : String) : List String → String
  | [] => ""
  | [x] => x
  | x :: y :: rest => x ++ sep ++ pyJoin sep (y :: rest)

/-- The system block of `build_prompt_text` (line 260). -/
def sysBlock (system_prompt : String) : String :=
  "SYSTEM:\n" ++ pyStrip system_prompt ++ "\n"

/-- One history block of `build_prompt_text` (lines 262-265). -/
def histBlock (item : HistItem) : String :=
  upperStr item.role ++ ":\n" ++ item.text ++ "\n"

/-- The current-user block of `build_prompt_text` (line 267). -/
def userBlock (user_message : String) : String :=
  "USER:\n" ++ user_message ++ "\n"

/-- The parts list built by `build_prompt_text` (lines 260-268). -/
def promptParts (system_prompt : String) (history_items : List HistItem)
    (user_message : String) : List String :=
  sysBlock system_prompt
    :: (history_items.map histBlock
      ++ [userBlock user_message, "ASSISTANT:"])

/-- `build_prompt_text(system_prompt, history_items, user_message)`
(lines 258-270): `"\n".join(parts)`. -/
def buildPromptText (system_prompt : String) (history_items : List HistItem)
    (user_message : String) : String :=
  pyJoin "\n" (promptParts system_prompt history_items user_message)

/-- The fixed trigger list of `should_escalate` (lines 390-396). -/
def escalationTriggers : List String :=
  ["escalate", "speak to human", "contact support", "human agent",
   "contact us", "need assistance", "supervisor", "manager",
   "security concern", "fraud", "hacked", "suspicious",
   "refund dispute", "damaged", "defective", "exception",
   "very upset", "angry", "frustrated"]

/-- `should_escalate(text)` (lines 388-398): case-insensitive substring
match against the trigger list. -/
def shouldEscalate (text : String) : Bool :=
  escalationTriggers.any (fun trigger => strContains (lowerStr text) trigger)

/-! ### The spec's view of lookup (§4.2), for the refinement claim -/

/-- The running maximum of the similarity scores of a tail of the cache,
seeded with `m₀`. -/
def maxFrom (q : String) (m₀ : ℚ) (t : List Faq) : ℚ :=
  (t.map fun f => similarityScore q f.question).foldl max m₀

/-- Spec §4.2: the best similarity score over all stored questions (`0` for
an empty cache). -/
def specBestScore (q : String) (faqs : List Faq) : ℚ := maxFrom q 0 faqs

/-- Spec §4.2: the entry with the strictly highest score, first entry
winning ties, returned only if the best score meets the threshold. -/
def specFaqLookup (θ : ℚ) (q : String) (faqs : List Faq) : Option Faq :=
  if specBestScore q faqs < θ then none
  else faqs.find? fun f => decide (similarityScore q f.question = specBestScore q faqs)

theorem maxFrom_cons (q : String) (m₀ : ℚ) (f : Faq) (t : List Faq) :
    maxFrom q m₀ (f :: t) = maxFrom q (max m₀ (similarityScore q f.question)) t := rfl

theorem le_maxFrom (q : String) : ∀ (t : List Faq) (m₀ : ℚ), m₀ ≤ maxFrom q m₀ t := by
  intro t
  induction t with
  | nil => intro m₀; exact le_rfl
  | cons f t ih =>
    intro m₀
    rw [maxFrom_cons]
    exact le_trans (le_max_left _ _) (ih _)

/-- Characterization of the scan loop from an arbitrary running state: the
final best score is the running maximum, and when some entry improves on
the seed, the final best entry is the first one attaining the maximum. -/
theorem faqScan_fold (q : String) : ∀ (t : List Faq) (st : Option FaqMatch × ℚ),
    (t.foldl (faqScanStep q) st).2 = maxFrom q st.2 t ∧
    (maxFrom q st.2 t = st.2 → (t.foldl (faqScanStep q) st).1 = st.1) ∧
    (st.2 < maxFrom q st.2 t →
      (t.foldl (faqScanStep q) st).1 =
        (t.find? fun f =>
          decide (similarityScore q f.question = maxFrom q st.2 t)).map (faqMatchOf q)) := by
  intro t
  induction t with
  | nil =>
    intro st
    exact ⟨rfl, fun _ => rfl, fun h => absurd h (lt_irrefl _)⟩
  | cons f t ih =>
    intro st
    simp only [List.foldl_cons, maxFrom_cons]
    by_cases hlt : st.2 < similarityScore q f.question
    · have hstep : faqScanStep q st f =
          (some (faqMatchOf q f), similarityScore q f.question) := by
        unfold faqScanStep; rw [if_pos hlt]
      rw [hstep]
      have hmax : max st.2 (similarityScore q f.question) = similarityScore q f.question :=
        max_eq_right (le_of_lt hlt)
      simp only [hmax]
      obtain ⟨ih1, ih2, ih3⟩ := ih (some (faqMatchOf q f), similarityScore q f.question)
      refine ⟨ih1, ?_, ?_⟩
      · intro habs
        have hge := le_maxFrom q t (similarityScore q f.question)
        exact absurd (lt_of_lt_of_le hlt (habs ▸ hge)) (lt_irrefl _)
      · intro _
        rcases eq_or_lt_of_le (le_maxFrom q t (similarityScore q f.question)) with heq | hstrict
        · rw [ih2 heq.symm]
          rw [List.find?_cons_of_pos _ (by rw [← heq]; simp)]
          rfl
        · rw [ih3 hstrict]
          rw [List.find?_cons_of_neg _ (by simp; exact ne_of_lt hstrict)]
    · have hstep : faqScanStep q st f = st := by
        unfold faqScanStep; rw [if_neg hlt]
      rw [hstep]
      have hmax : max st.2 (similarityScore q f.question) = st.2 :=
        max_eq_left (le_of_not_lt hlt)
      simp only [hmax]
      obtain ⟨ih1, ih2, ih3⟩ := ih st
      refine ⟨ih1, ih2, ?_⟩
      intro hgt
      rw [ih3 hgt]
      rw [List.find?_cons_of_neg _ (by
        simp
        exact ne_of_lt (lt_of_le_of_lt (le_of_not_lt hlt) hgt))]

/-! ## Model Adapter (`call_bedrock_model`, lines 272-386)

The response body handed back by `bedrock.invoke_model` is a JSON value.
The extraction code pokes at it with `in`, `[...]`, `.get` and `.strip()`;
those operations raise `TypeError` / `AttributeError` / `KeyError` on
values of the wrong shape, and every such exception is caught by the
`except Exception` handler (line 384), so the extraction is modelled in an
`Except PyErr` monad. -/

/-- A JSON value (the parsed Bedrock response body). -/
inductive Json where
  | null
  | bool (b : Bool)
  | num (q : ℚ)
  | str (s : String)
  | arr (elems : List Json)
  | obj (fields : List (String × Json))

/-- A Python exception raised while poking at the response body; all are
caught by the generic handler of `call_bedrock_model`. -/
inductive PyErr where
  | typeError
  | attributeError
  | keyError
deriving Repr, DecidableEq

/-- Python's `key in value`: key membership for dicts, substring test for
strings, element membership for lists, `TypeError` otherwise. -/
def pyIn (key : String) : Json → Except PyErr Bool
  | .obj fields => .ok (fields.any fun p => p.1 == key)
  | .str s => .ok (strContains s key)
  | .arr elems => .ok (elems.any fun e => match e with | .str s => s == key | _ => false)
  | _ => .error .typeError

/-- Python's `value[key]`: dict lookup (`KeyError` when absent),
`TypeError` on any other shape. -/
def pyGetItem (v : Json) (key : String) : Except PyErr Json :=
  match v with
  | .obj fields =>
    match fields.find? (fun p => p.1 == key) with
    | some p => .ok p.2
    | none => .error .keyError
  | _ => .error .typeError

/-- Python's `value.get(key, default)`: `AttributeError` on non-dicts. -/
def pyGet (v : Json) (key : String) (dflt : Json) : Except PyErr Json :=
  match v with
  | .obj fields =>
    match fields.find? (fun p => p.1 == key) with
    | some p => .ok p.2
    | none => .ok dflt
  | _ => .error .attributeError

/-- `x.strip()` on a value taken out of the body: `AttributeError` unless
it is a string. -/
def pyStripJson : Json → Except PyErr String
  | .str s => .ok (pyStrip s)
  | _ => .error .attributeError

/-- The `for content_block in ...` loop shared by the two nova paths
(lines 340-342 and 345-347): the stripped `"text"` of the first dict block
carrying one; blocks of other shapes are skipped. -/
def scanContentBlocks : List Json → Except PyErr (Option String)
  | [] => .ok none
  | block :: rest =>
    match block with
    | .obj fields =>
      match fields.find? (fun p => p.1 == "text") with
      | some p => (pyStripJson p.2).map some
      | none => scanContentBlocks rest
    | _ => scanContentBlocks rest

/-- The nova (chat-message) extraction paths (lines 336-347): first
`output.message.content`, then a top-level `content` list; falls through
with `none` when neither yields text. -/
def novaExtract (body : Json) : Except PyErr (Option String) := do
  let output ← pyGet body "output" (.obj [])
  let viaMessage ← do
    if (← pyIn "message" output) then
      let message ← pyGetItem output "message"
      if (← pyIn "content" message) then
        let content ← pyGetItem message "content"
        match content with
        | .arr blocks => scanContentBlocks blocks
        | _ => pure none
      else pure none
    else pure none
  match viaMessage with
  | some t => pure (some t)
  | none =>
    if (← pyIn "content" body) then
      let content ← pyGetItem body "content"
      match content with
      | .arr blocks => scanContentBlocks blocks
      | _ => pure none
    else pure none

/-- The llama extraction path (lines 348-351). -/
def llamaExtract (body : Json) : Except PyErr (Option String) := do
  if (← pyIn "generation" body) then
    let v ← pyGetItem body "generation"
    match v with
    | .str s => pure (some (pyStrip s))
    | _ => pure none
  else pure none

/-- The mistral extraction path (lines 352-356). -/
def mistralExtract (body : Json) : Except PyErr (Option String) := do
  if (← pyIn "outputs" body) then
    let outputs ← pyGetItem body "outputs"
    match outputs with
    | .arr [] => pure none
    | .arr (first :: _) =>
      if (← pyIn "text" first) then
        let v ← pyGetItem first "text"
        (pyStripJson v).map some
      else pure none
    | _ => pure none
  else pure none

/-- The default (titan) extraction path (lines 357-361). -/
def titanExtract (body : Json) : Except PyErr (Option String) := do
  if (← pyIn "results" body) then
    let results ← pyGetItem body "results"
    match results with
    | .arr [] => pure none
    | .arr (first :: _) =>
      if (← pyIn "outputText" first) then
        let v ← pyGetItem first "outputText"
        (pyStripJson v).map some
      else pure none
    | _ => pure none
  else pure none

/-- The ordered generic fallback keys (line 364). -/
def genericKeys : List String :=
  ["text", "generatedText", "generation", "output", "outputText"]

/-- The generic fallback scan (lines 364-366): first string-typed value
under the fixed keys. -/
def genericScan (body : Json) : List String → Except PyErr (Option String)
  | [] => pure none
  | key :: rest => do
    if (← pyIn key body) then
      let v ← pyGetItem body key
      match v with
      | .str s => pure (some (pyStrip s))
      | _ => genericScan body rest
    else genericScan body rest

/-- Text extraction of `call_bedrock_model` (lines 334-366): the
family-specific path chosen by substring tests on the lower-cased model
identifier, then the generic key scan. -/
def extractText (modelId : String) (body : Json) : Except PyErr (Option String) := do
  let familyText ←
    if strContains (lowerStr modelId) "nova" then novaExtract body
    else if strContains (lowerStr modelId) "llama" then llamaExtract body
    else if strContains (lowerStr modelId) "mistral" then mistralExtract body
    else titanExtract body
  match familyText with
  | some t => pure (some t)
  | none => genericScan body genericKeys

/-- An outcome of `bedrock.invoke_model` plus reading and JSON-parsing the
response body (lines 321-329): a parsed body, a `botocore` `ClientError`
carrying an error code and message, or any other exception. -/
inductive InvokeOutcome where
  | ok (body : Json)
  | clientError (code msg : String)
  | otherError

/-- Fixed fallback reply of the configuration-error branch (line 377). -/
def configErrorReply : String :=
  "The AI model configuration needs adjustment. Please contact support."

/-- Fixed fallback reply of the throttling branch (line 379). -/
def busyReply : String :=
  "The service is temporarily busy. Please try again in a moment."

/-- Fixed fallback reply of the model-unavailable branch (line 381). -/
def notAvailableReply : String :=
  "The requested model is not available. Please contact support."

/-- Fixed fallback reply for an unrecognized body shape (line 369). -/
def unexpectedFormatReply : String :=
  "I encountered an unexpected response format. Please try again or contact support."

/-- Fixed fallback reply of the generic exception handler (line 386). -/
def unexpectedErrorReply : String :=
  "An unexpected error occurred. Please contact support."

/-- The `ClientError` branch of `call_bedrock_model` (lines 371-383):
substring tests on the error code, in order. -/
def classifyBedrockError (code msg : String) : String :=
  if strContains code "ValidationException"
      || strContains code "InvalidParameterException" then
    configErrorReply
  else if strContains code "ThrottlingException"
      || strContains code "ServiceQuotaExceededException" then
    busyReply
  else if strContains code "ModelNotFound" || strContains code "AccessDenied" then
    notAvailableReply
  else
    "AI service error: " ++ msg ++ ". Please try again or contact support."

/-- `call_bedrock_model(prompt_text, max_tokens)` (lines 272-386) as a
function of the invocation outcome.  Payload assembly (lines 276-316)
cannot raise and does not influence the returned text.  Every branch
returns a string: `ClientError`s are classified to fixed replies, any
other exception yields the generic reply, and a body from which no text
can be extracted yields the fixed format reply (line 369). -/
def callBedrockModel (modelId : String) (outcome : InvokeOutcome) : String :=
  match outcome with
  | .clientError code msg => classifyBedrockError code msg
  | .otherError => unexpectedErrorReply
  | .ok body =>
    match extractText modelId body with
    | .ok (some t) => t
    | .ok none => unexpectedFormatReply
    | .error _ => unexpectedErrorReply

/-! ## Resolution Orchestrator (`lambda_handler`, lines 413-490)

The handler is modelled from the body parse onwards; CORS preflight
handling and the `init_seed_faqs()` call at line 418 are outside the
answer-resolution path (the latter is modelled separately by
`initSeedFaqs` and writes no conversation turns).  Fresh identifiers
(`uuid`) and every store / inference outcome are supplied by a
`ChatWorld`.  The response timestamp (`now_iso`) is external and carries
no decision logic, so it is omitted from the modelled payload. -/

/-- The `SYSTEM_PROMPT` constant (lines 29-57). -/
def systemPrompt : String :=
  "You are a helpful, friendly customer support assistant for our Amazon-style e-commerce marketplace. "
    ++ "Your role is to assist customers with orders, shipping, returns, refunds, product questions, and account issues.\n\n"
    ++ "KEY POLICIES:\n"
    ++ "- Returns: 30 days from purchase for most items (electronics 15 days)\n"
    ++ "- Free shipping on orders over $50; otherwise $5.99\n"
    ++ "- Refunds processed within 5-10 business days after return received\n"
    ++ "- Standard shipping: 5-7 business days | Express: 2-3 business days\n"
    ++ "- Warranty: 1 year manufacturer warranty on electronics\n"
    ++ "- Damaged/defective items replaced at no cost\n\n"
    ++ "COMMUNICATION STYLE:\n"
    ++ "- Be warm, professional, and efficient\n"
    ++ "- Keep responses under 150 words\n"
    ++ "- Use conversational tone but stay professional\n"
    ++ "- Acknowledge customer frustration if present\n"
    ++ "- Provide specific information (order numbers, dates, amounts)\n\n"
    ++ "WHEN TO ESCALATE:\n"
    ++ "- Customer is very upset or frustrated\n"
    ++ "- Complex refund disputes or damaged items requiring proof\n"
    ++ "- Security concerns (account hacked, fraud)\n"
    ++ "- Payment authorization issues\n"
    ++ "- Requests for exceptions to standard policies\n"
    ++ "- Technical issues you cannot resolve\n\n"
    ++ "Use conversation history for context. If you cannot help, clearly state why and offer escalation to our support team."

/-- The final response payload of a successful resolution (lines 480-487,
without the external timestamp). -/
structure ChatResponse where
  session_id : String
  message_id : String
  reply : String
  source : String
  escalate : Bool
deriving Repr, DecidableEq

/-- The result of `lambda_handler`: a 400 validation response, a 200
success response, or a store exception propagating uncaught out of the
handler (from `save_message`, which re-raises). -/
inductive LambdaResult where
  | badRequest (errMsg : String)
  | success (resp : ChatResponse)
  | uncaught (e : StoreErr)
deriving Repr, DecidableEq

/-- Fresh identifiers and external outcomes consumed by one invocation. -/
structure ChatWorld where
  freshSessionId : String
  userMsgId : String
  assistantMsgId : String
  userSave : Except StoreErr Unit
  historyQuery : Except StoreErr (List HistItem)
  invoke : InvokeOutcome
  assistantSave : Except StoreErr Unit

/-- Observable effects of one invocation: conversation turns saved (role,
text), FAQ rows written (question, answer), prompts sent to the model, and
the number of `quick_faq_lookup` calls performed. -/
structure HandlerTrace where
  turns : List (String × String)
  faqWrites : List (String × String)
  modelPrompts : List String
  faqLookups : Nat
deriving Repr, DecidableEq

/-- Lines 450-467: the branch on `faq_hit`.  On a hit the cached answer is
used verbatim with `source = "faq"` and `escalate = False`; on a miss a
placeholder FAQ row is reserved, the prompt is built and sent, the reply
classified, and a second full FAQ row written.  Returns
`(reply, source, escalate, faq writes, prompts sent)`. -/
def answerStep (modelId : String) (faqHit : Option FaqMatch)
    (history : List HistItem) (userMessage : String) (invoke : InvokeOutcome) :
    String × String × Bool × List (String × String) × List String :=
  match faqHit with
  | some hit => (hit.answer, "faq", false, [], [])
  | none =>
    (callBedrockModel modelId invoke, "model",
      shouldEscalate (callBedrockModel modelId invoke),
      [(userMessage, ""), (userMessage, callBedrockModel modelId invoke)],
      [buildPromptText systemPrompt history userMessage])

/-- `body.get("session_id") or create_session_id()` (line 432): a missing
or falsy (empty) session identifier is replaced by a fresh one. -/
def sessionIdOf (w : ChatWorld) (sessionIdOpt : Option String) : String :=
  match sessionIdOpt with
  | some s => if s = "" then w.freshSessionId else s
  | none => w.freshSessionId

/-- `lambda_handler` from the parsed body onwards (lines 430-490).
Validation strips both fields and fails fast with a 400 before any store
write; the user turn is saved (re-raising store failures), bounded history
is fetched, `faq_hit = None` is forced at line 448 (no cache lookup), the
miss branch resolves via the model, and the assistant turn is saved with
`source` and `escalate` metadata. -/
def lambdaHandler (modelId : String) (w : ChatWorld)
    (userIdRaw messageRaw : String) (sessionIdOpt : Option String) :
    LambdaResult × HandlerTrace :=
  let user_id := pyStrip userIdRaw
  let user_message := pyStrip messageRaw
  if user_id = "" ∨ user_message = "" then
    (.badRequest "user_id and message are required", ⟨[], [], [], 0⟩)
  else
    match saveMessage w.userSave with
    | .error e => (.uncaught e, ⟨[("user", user_message)], [], [], 0⟩)
    | .ok _ =>
      let history := getRecentHistory w.historyQuery
      -- line 448: `faq_hit = None` — quick_faq_lookup is never invoked
      match answerStep modelId none history user_message w.invoke with
      | (reply, source, escalate, faqW, prompts) =>
        match saveMessage w.assistantSave with
        | .error e =>
          (.uncaught e,
           ⟨[("user", user_message), ("assistant", reply)], faqW, prompts, 0⟩)
        | .ok _ =>
          (.success ⟨sessionIdOf w sessionIdOpt, w.assistantMsgId, reply, source, escalate⟩,
           ⟨[("user", user_message), ("assistant", reply)], faqW, prompts, 0⟩)

/-! ## Supporting lemmas for the prompt assembler and the orchestrator -/

theorem pyJoin_cons_cons (sep x y : String) (rest : List String) :
    pyJoin sep (x :: y :: rest) = x ++ sep ++ pyJoin sep (y :: rest) := rfl

theorem pyJoin_append_two :
    ∀ (l : List String) (x a b : String),
      pyJoin "\n" ((x :: l) ++ [a, b]) =
        pyJoin "\n" (x :: l) ++ "\n" ++ a ++ "\n" ++ b := by
  intro l
  induction l with
  | nil =>
    intro x a b
    show pyJoin "\n" [x, a, b] = x ++ "\n" ++ a ++ "\n" ++ b
    rw [pyJoin_cons_cons, pyJoin_cons_cons]
    simp [pyJoin, String.append_assoc]
  | cons y t ih =>
    intro x a b
    show pyJoin "\n" (x :: ((y :: t) ++ [a, b])) = _
    rw [show x :: ((y :: t) ++ [a, b]) = x :: (y :: (t ++ [a, b])) from rfl,
      pyJoin_cons_cons]
    rw [show (y :: (t ++ [a, b])) = ((y :: t) ++ [a, b]) from rfl, ih y a b,
      pyJoin_cons_cons]
    simp [String.append_assoc]

/-- The assembled prompt is the joined system and history blocks followed by
the user block and the trailing assistant marker. -/
theorem buildPromptText_suffix (sys msg : String) (hist : List HistItem) :
    buildPromptText sys hist msg =
      pyJoin "\n" (sysBlock sys :: hist.map histBlock)
        ++ "\n" ++ userBlock msg ++ "\n" ++ "ASSISTANT:" := by
  unfold buildPromptText promptParts
  rw [show sysBlock sys :: (hist.map histBlock ++ [userBlock msg, "ASSISTANT:"])
      = (sysBlock sys :: hist.map histBlock) ++ [userBlock msg, "ASSISTANT:"] from rfl]
  exact pyJoin_append_two (hist.map histBlock) (sysBlock sys) (userBlock msg) "ASSISTANT:"

theorem sortByTs_sorted (items : List HistItem) :
    List.Pairwise (fun x y => x.message_ts ≤ y.message_ts) (sortByTs items) := by
  have h := @List.sorted_mergeSort HistItem
    (fun x y : HistItem => decide (x.message_ts ≤ y.message_ts))
    (fun a b c hab hbc => by
      simp only [decide_eq_true_eq] at hab hbc ⊢
      exact le_trans hab hbc)
    (fun a b => by
      rcases le_total a.message_ts b.message_ts with h | h <;> simp [h])
    items
  exact h.imp (fun hab => by simpa using hab)

theorem sortByTs_perm (items : List HistItem) : (sortByTs items).Perm items :=
  List.mergeSort_perm items _

/-- Permuting the retrieved items does not change the re-sorted history when
the timestamps are pairwise distinct. -/
theorem sortByTs_congr (items items' : List HistItem)
    (hperm : items.Perm items')
    (hnodup : items.Pairwise fun x y => x.message_ts ≠ y.message_ts) :
    sortByTs items = sortByTs items' := by
  have hperm1 : (sortByTs items).Perm items := sortByTs_perm items
  have hperm2 : (sortByTs items').Perm items' := sortByTs_perm items'
  have hall : (sortByTs items).Perm (sortByTs items') :=
    (hperm1.trans hperm).trans hperm2.symm
  have hnd1 : (sortByTs items).Pairwise fun x y => x.message_ts ≠ y.message_ts :=
    (hperm1.pairwise_iff (fun h => Ne.symm h)).mpr hnodup
  have hnd2 : (sortByTs items').Pairwise fun x y => x.message_ts ≠ y.message_ts :=
    (hperm2.pairwise_iff (fun h => Ne.symm h)).mpr
      ((hperm.pairwise_iff (fun h => Ne.symm h)).mp hnodup)
  have hs1 : (sortByTs items).Pairwise fun x y => x.message_ts < y.message_ts :=
    ((sortByTs_sorted items).and hnd1).imp
      (fun h => lt_of_le_of_ne h.1 h.2)
  have hs2 : (sortByTs items').Pairwise fun x y => x.message_ts < y.message_ts :=
    ((sortByTs_sorted items').and hnd2).imp
      (fun h => lt_of_le_of_ne h.1 h.2)
  letI : IsAntisymm HistItem (fun x y => x.message_ts < y.message_ts) :=
    ⟨fun a b h1 h2 => absurd (lt_trans h1 h2) (lt_irrefl _)⟩
  exact List.eq_of_perm_of_sorted hall hs1 hs2

/-- The full success path of `lambda_handler` on a valid request with a
healthy turn store: cache lookup bypassed, reply generated by the model,
escalation classified, a placeholder and a full FAQ row written, both
turns saved. -/
theorem lambdaHandler_model_path (modelId : String) (w : ChatWorld)
    (u m : String) (sid : Option String)
    (hu : ¬ pyStrip u = "") (hm : ¬ pyStrip m = "")
    (hus : w.userSave = .ok ()) (has : w.assistantSave = .ok ()) :
    lambdaHandler modelId w u m sid =
      (.success ⟨sessionIdOf w sid, w.assistantMsgId,
         callBedrockModel modelId w.invoke, "model",
         shouldEscalate (callBedrockModel modelId w.invoke)⟩,
       ⟨[("user", pyStrip m), ("assistant", callBedrockModel modelId w.invoke)],
        [(pyStrip m, ""), (pyStrip m, callBedrockModel modelId w.invoke)],
        [buildPromptText systemPrompt (getRecentHistory w.historyQuery) (pyStrip m)],
        0⟩) := by
  unfold lambdaHandler
  rw [if_neg (by push_neg; exact ⟨hu, hm⟩), hus, has]
  rfl

/-! ## The claims -/

theorem callBedrockModel_ok (modelId : String) (body : Json) :
    callBedrockModel modelId (.ok body) =
      match extractText modelId body with
      | .ok (some t) => t
      | .ok none => unexpectedFormatReply
      | .error _ => unexpectedErrorReply := rfl

theorem quickFaqLookup_ok (θ : ℚ) (faqs : List Faq) (q : String) :
    quickFaqLookup θ (.ok faqs) q =
      if faqs.isEmpty then .ok none
      else
        match faqScan q faqs with
        | (some best, _) => if θ ≤ best.score then .ok (some best) else .ok none
        | (none, _) => .ok none := rfl

/-- C1: the Model Adapter's generate operation (`call_bedrock_model`) never
raises past its boundary: it is a total function returning a string for
every invocation outcome; a `ClientError` whose code the branch chain
classifies as throttling/quota exhaustion yields the fixed "temporarily
busy" string, and a parsed body from which neither the family-specific nor
the generic path extracts text yields the fixed "unexpected response
format" string as a normal return value. -/
theorem c1_model_adapter_never_raises (modelId code msg : String) (body : Json)
    (outcome : InvokeOutcome) :
    (∃ s : String, callBedrockModel modelId outcome = s) ∧
    (strContains code "ValidationException" = false →
     strContains code "InvalidParameterException" = false →
     (strContains code "ThrottlingException" = true ∨
      strContains code "ServiceQuotaExceededException" = true) →
     callBedrockModel modelId (.clientError code msg) = busyReply) ∧
    (extractText modelId body = .ok none →
     callBedrockModel modelId (.ok body) = unexpectedFormatReply) := by
  refine ⟨⟨callBedrockModel modelId outcome, rfl⟩, ?_, ?_⟩
  · intro h1 h2 h3
    show classifyBedrockError code msg = busyReply
    unfold classifyBedrockError
    rw [if_neg (by simp [h1, h2]), if_pos (by rcases h3 with h | h <;> simp [h])]
  · intro h
    rw [callBedrockModel_ok, h]

theorem c1_witness :
    callBedrockModel "amazon.nova-pro-v1:0"
        (.clientError "ThrottlingException" "rate exceeded") = busyReply ∧
    callBedrockModel "amazon.nova-pro-v1:0"
        (.ok (Json.obj [("foo", Json.str "bar")])) = unexpectedFormatReply :=
  ⟨(c1_model_adapter_never_raises "amazon.nova-pro-v1:0" "ThrottlingException"
      "rate exceeded" (Json.obj [("foo", Json.str "bar")]) .otherError).2.1
      (by decide) (by decide) (Or.inl (by decide)),
   (c1_model_adapter_never_raises "amazon.nova-pro-v1:0" "ThrottlingException"
      "rate exceeded" (Json.obj [("foo", Json.str "bar")]) .otherError).2.2 rfl⟩

/-- C2: for every cache state and query, `quick_faq_lookup` returns none on
an empty cache, none when the best similarity score is strictly below the
threshold, and otherwise the first-scanned entry attaining the highest
score — i.e. it refines the spec-side `specFaqLookup` (threshold positive,
as the default `0.5` is). -/
theorem c2_cache_lookup (θ : ℚ) (q : String) (faqs : List Faq) (hθ : 0 < θ) :
    (faqs = [] → quickFaqLookup θ (.ok faqs) q = .ok none) ∧
    quickFaqLookup θ (.ok faqs) q = .ok ((specFaqLookup θ q faqs).map (faqMatchOf q)) := by
  constructor
  · rintro rfl
    rfl
  · cases faqs with
    | nil =>
      show Except.ok none = Except.ok ((specFaqLookup θ q []).map (faqMatchOf q))
      unfold specFaqLookup
      rw [if_pos (show specBestScore q [] < θ from hθ)]
      rfl
    | cons f t =>
      obtain ⟨h1, h2, h3⟩ := faqScan_fold q (f :: t) (none, 0)
      rcases hscan : faqScan q (f :: t) with ⟨b, mm⟩
      have hfold : List.foldl (faqScanStep q) (none, 0) (f :: t) = (b, mm) := hscan
      rw [hfold] at h1 h2 h3
      replace h1 : mm = maxFrom q 0 (f :: t) := h1
      replace h2 : maxFrom q 0 (f :: t) = 0 → b = none := h2
      replace h3 : 0 < maxFrom q 0 (f :: t) →
          b = ((f :: t).find? fun f' =>
            decide (similarityScore q f'.question = maxFrom q 0 (f :: t))).map
            (faqMatchOf q) := h3
      have hM0 : (0 : ℚ) ≤ maxFrom q 0 (f :: t) := le_maxFrom q (f :: t) 0
      rw [quickFaqLookup_ok]
      simp only [List.isEmpty_cons, Bool.false_eq_true, if_false]
      rw [hscan]
      unfold specFaqLookup specBestScore
      cases b with
      | none =>
        rcases eq_or_lt_of_le hM0 with heq | hlt
        · rw [if_pos (show maxFrom q 0 (f :: t) < θ from heq ▸ hθ)]
          rfl
        · have hb := h3 hlt
          by_cases hθM : maxFrom q 0 (f :: t) < θ
          · rw [if_pos hθM]
            rfl
          · rw [if_neg hθM, ← hb]
      | some best =>
        have hMne : maxFrom q 0 (f :: t) ≠ 0 := by
          intro h0
          exact absurd (h2 h0) (by simp)
        have hlt : (0 : ℚ) < maxFrom q 0 (f :: t) := lt_of_le_of_ne hM0 (Ne.symm hMne)
        have hb := h3 hlt
        rcases hfind : (f :: t).find?
            (fun f' => decide (similarityScore q f'.question = maxFrom q 0 (f :: t)))
          with _ | f₁
        · rw [hfind] at hb
          exact absurd hb (by simp)
        · rw [hfind] at hb
          simp only [Option.map_some'] at hb
          have hbest : best = faqMatchOf q f₁ := Option.some.inj hb
          have hscore : similarityScore q f₁.question = maxFrom q 0 (f :: t) := by
            have := List.find?_some hfind
            simpa using this
          rw [hfind]
          by_cases hθM : maxFrom q 0 (f :: t) < θ
          · rw [if_pos hθM]
            show (if θ ≤ best.score then Except.ok (some best) else Except.ok none) = _
            rw [if_neg (by
              rw [hbest]
              show ¬ θ ≤ similarityScore q f₁.question
              rw [hscore]
              exact not_le.mpr hθM)]
            rfl
          · rw [if_neg hθM]
            show (if θ ≤ best.score then Except.ok (some best) else Except.ok none) = _
            rw [if_pos (by
              rw [hbest]
              show θ ≤ similarityScore q f₁.question
              rw [hscore]
              exact le_of_not_lt hθM)]
            rw [hbest]
            rfl

theorem c2_witness :
    quickFaqLookup (1/2) (.ok [⟨"faq-1", "how do i track my order?", "Use the Orders page."⟩])
        "How do I track my order?" =
      .ok ((specFaqLookup (1/2) "How do I track my order?"
          [⟨"faq-1", "how do i track my order?", "Use the Orders page."⟩]).map
        (faqMatchOf "How do I track my order?")) :=
  (c2_cache_lookup (1/2) "How do I track my order?"
    [⟨"faq-1", "how do i track my order?", "Use the Orders page."⟩] (by norm_num)).2

/-- C3: on a valid request the orchestrator never consults the cache lookup
(`faq_hit = None` at line 448), unconditionally resolves through the model
(`source = "model"`), sets the escalation flag by classifying the generated
reply, and writes exactly two FAQ rows for the message: a placeholder with
an empty answer and then a full row with the generated answer. -/
theorem c3_forced_model_resolution (modelId : String) (w : ChatWorld)
    (u m : String) (sid : Option String)
    (hu : ¬ pyStrip u = "") (hm : ¬ pyStrip m = "")
    (hus : w.userSave = .ok ()) (has : w.assistantSave = .ok ()) :
    (lambdaHandler modelId w u m sid).2.faqLookups = 0 ∧
    (lambdaHandler modelId w u m sid).1 =
      .success ⟨sessionIdOf w sid, w.assistantMsgId,
        callBedrockModel modelId w.invoke, "model",
        shouldEscalate (callBedrockModel modelId w.invoke)⟩ ∧
    (lambdaHandler modelId w u m sid).2.faqWrites =
      [(pyStrip m, ""), (pyStrip m, callBedrockModel modelId w.invoke)] := by
  rw [lambdaHandler_model_path modelId w u m sid hu hm hus has]
  exact ⟨rfl, rfl, rfl⟩

theorem c3_witness :
    (lambdaHandler "amazon.nova-pro-v1:0"
        ⟨"sess-1", "msg-u", "msg-a", .ok (), .ok [],
          .ok (Json.obj [("text", Json.str "All good")]), .ok ()⟩
        "alice" "Where is my order?" none).2.faqLookups = 0 ∧
    (lambdaHandler "amazon.nova-pro-v1:0"
        ⟨"sess-1", "msg-u", "msg-a", .ok (), .ok [],
          .ok (Json.obj [("text", Json.str "All good")]), .ok ()⟩
        "alice" "Where is my order?" none).1 =
      .success ⟨sessionIdOf
          ⟨"sess-1", "msg-u", "msg-a", .ok (), .ok [],
            .ok (Json.obj [("text", Json.str "All good")]), .ok ()⟩ none, "msg-a",
        callBedrockModel "amazon.nova-pro-v1:0" (.ok (Json.obj [("text", Json.str "All good")])),
        "model",
        shouldEscalate (callBedrockModel "amazon.nova-pro-v1:0"
          (.ok (Json.obj [("text", Json.str "All good")])))⟩ ∧
    (lambdaHandler "amazon.nova-pro-v1:0"
        ⟨"sess-1", "msg-u", "msg-a", .ok (), .ok [],
          .ok (Json.obj [("text", Json.str "All good")]), .ok ()⟩
        "alice" "Where is my order?" none).2.faqWrites =
      [(pyStrip "Where is my order?", ""),
       (pyStrip "Where is my order?",
        callBedrockModel "amazon.nova-pro-v1:0"
          (.ok (Json.obj [("text", Json.str "All good")])))] :=
  c3_forced_model_resolution "amazon.nova-pro-v1:0"
    ⟨"sess-1", "msg-u", "msg-a", .ok (), .ok [],
      .ok (Json.obj [("text", Json.str "All good")]), .ok ()⟩
    "alice" "Where is my order?" none (by decide) (by decide) rfl rfl

/-- C4, as stated, is false on the code: in the hit branch the provenance
label is `"faq"` (line 452), not `"cache"`, as this concrete hit shows. -/
theorem c4_counterexample :
    (answerStep "amazon.nova-pro-v1:0"
      (some ⟨"faq-1", "q", "cached answer", 1⟩) [] "msg"
      (.ok (Json.obj []))).2.1 = "faq" ∧ ("faq" : String) ≠ "cache" :=
  ⟨rfl, by decide⟩

/-- C4 (amended): whenever the hit branch is taken, the cached answer text
is used verbatim as the reply, with provenance `source = "faq"`,
`escalate = false`, and no FAQ writes or model prompts. -/
theorem c4_hit_uses_cached_answer (modelId : String) (hit : FaqMatch)
    (history : List HistItem) (msg : String) (invoke : InvokeOutcome) :
    answerStep modelId (some hit) history msg invoke =
      (hit.answer, "faq", false, [], []) := rfl

/-- C5, as stated, is false on the code: a failing table scan in
`quick_faq_lookup` is caught and turned into a normal "no match" return
(line 195), and a failing `put_item` in `save_new_faq` is caught and turned
into a normal empty-identifier return (line 244) — neither is reported to
the caller. -/
theorem c5_counterexample :
    quickFaqLookup (1/2) (.error ⟨"AccessDeniedException"⟩) "any question" = .ok none ∧
    saveNewFaq "faq-123" "q" "a" (.error ⟨"AccessDeniedException"⟩) = .ok "" :=
  ⟨rfl, rfl⟩

/-- C5 (amended): store failures are absorbed everywhere in the cache
layer: lookup turns a failed scan into a normal none, insert turns a failed
write into a normal empty identifier, bootstrap suppresses a failed scan,
and neither lookup nor insert ever lets a store error escape. -/
theorem c5_store_failures_absorbed (θ : ℚ) (q newId question answer : String)
    (e : StoreErr) :
    quickFaqLookup θ (.error e) q = .ok none ∧
    saveNewFaq newId question answer (.error e) = .ok "" ∧
    initSeedFaqs (.error e) = .ok [] ∧
    (∀ scan : Except StoreErr (List Faq), ∃ r, quickFaqLookup θ scan q = .ok r) ∧
    (∀ put : Except StoreErr Unit, ∃ r, saveNewFaq newId question answer put = .ok r) := by
  refine ⟨rfl, rfl, rfl, ?_, ?_⟩
  · intro scan
    match scan with
    | .error _ => exact ⟨none, rfl⟩
    | .ok faqs =>
      rw [quickFaqLookup_ok]
      by_cases he : faqs.isEmpty = true
      · exact ⟨none, by rw [if_pos he]⟩
      · rw [if_neg he]
        rcases hscan : faqScan q faqs with ⟨b, mm⟩
        cases b with
        | none => exact ⟨none, rfl⟩
        | some best =>
          by_cases hsc : θ ≤ best.score
          · refine ⟨some best, ?_⟩
            show (if θ ≤ best.score then Except.ok (some best) else Except.ok none) = _
            rw [if_pos hsc]
          · refine ⟨none, ?_⟩
            show (if θ ≤ best.score then Except.ok (some best) else Except.ok none) = _
            rw [if_neg hsc]
  · intro put
    match put with
    | .error _ => exact ⟨"", rfl⟩
    | .ok _ => exact ⟨newId, rfl⟩

/-- C6: the assembled prompt carries the user message verbatim as the last
content block before the trailing assistant marker, and the history blocks
appear oldest-first (sorted by timestamp) regardless of the order in which
the turn store handed them back. -/
theorem c6_prompt_assembly (sys msg : String) (items items' : List HistItem)
    (hperm : items.Perm items')
    (hnodup : items.Pairwise fun x y => x.message_ts ≠ y.message_ts) :
    buildPromptText sys (getRecentHistory (.ok items)) msg =
      pyJoin "\n" (sysBlock sys :: (getRecentHistory (.ok items)).map histBlock)
        ++ "\n" ++ ("USER:\n" ++ msg ++ "\n") ++ "\n" ++ "ASSISTANT:" ∧
    List.Pairwise (fun x y => x.message_ts ≤ y.message_ts) (getRecentHistory (.ok items)) ∧
    (getRecentHistory (.ok items)).Perm items ∧
    buildPromptText sys (getRecentHistory (.ok items)) msg =
      buildPromptText sys (getRecentHistory (.ok items')) msg := by
  refine ⟨buildPromptText_suffix sys msg (getRecentHistory (.ok items)), ?_, ?_, ?_⟩
  · exact sortByTs_sorted items
  · exact sortByTs_perm items
  · show buildPromptText sys (sortByTs items) msg = buildPromptText sys (sortByTs items') msg
    rw [sortByTs_congr items items' hperm hnodup]

theorem c6_witness :
    buildPromptText "Be helpful."
        (getRecentHistory (.ok [⟨"2024-01-02T00:00:00Z", "assistant", "Hi there"⟩,
          ⟨"2024-01-01T00:00:00Z", "user", "Hello"⟩])) "Where is my order?" =
      pyJoin "\n" (sysBlock "Be helpful."
          :: (getRecentHistory (.ok [⟨"2024-01-02T00:00:00Z", "assistant", "Hi there"⟩,
            ⟨"2024-01-01T00:00:00Z", "user", "Hello"⟩])).map histBlock)
        ++ "\n" ++ ("USER:\n" ++ "Where is my order?" ++ "\n") ++ "\n" ++ "ASSISTANT:" ∧
    List.Pairwise (fun x y => x.message_ts ≤ y.message_ts)
      (getRecentHistory (.ok [⟨"2024-01-02T00:00:00Z", "assistant", "Hi there"⟩,
        ⟨"2024-01-01T00:00:00Z", "user", "Hello"⟩])) ∧
    (getRecentHistory (.ok [⟨"2024-01-02T00:00:00Z", "assistant", "Hi there"⟩,
      ⟨"2024-01-01T00:00:00Z", "user", "Hello"⟩])).Perm
      [⟨"2024-01-02T00:00:00Z", "assistant", "Hi there"⟩,
       ⟨"2024-01-01T00:00:00Z", "user", "Hello"⟩] ∧
    buildPromptText "Be helpful."
        (getRecentHistory (.ok [⟨"2024-01-02T00:00:00Z", "assistant", "Hi there"⟩,
          ⟨"2024-01-01T00:00:00Z", "user", "Hello"⟩])) "Where is my order?" =
      buildPromptText "Be helpful."
        (getRecentHistory (.ok [⟨"2024-01-01T00:00:00Z", "user", "Hello"⟩,
          ⟨"2024-01-02T00:00:00Z", "assistant", "Hi there"⟩])) "Where is my order?" :=
  c6_prompt_assembly "Be helpful." "Where is my order?"
    [⟨"2024-01-02T00:00:00Z", "assistant", "Hi there"⟩,
     ⟨"2024-01-01T00:00:00Z", "user", "Hello"⟩]
    [⟨"2024-01-01T00:00:00Z", "user", "Hello"⟩,
     ⟨"2024-01-02T00:00:00Z", "assistant", "Hi there"⟩]
    (by decide) (by decide)

/-- C7: every similarity score lies in `[0, 1]`; two strings identical
after case-folding score exactly `1`; and that score is at least the score
of any other string against the same reference. -/
theorem c7_similarity_bounds (a b ref : String) :
    (0 ≤ similarityScore a b ∧ similarityScore a b ≤ 1) ∧
    (lowerChars a = lowerChars b → similarityScore a b = 1) ∧
    (lowerChars a = lowerChars ref → similarityScore b ref ≤ similarityScore a ref) := by
  refine ⟨⟨similarityScore_nonneg a b, similarityScore_le_one a b⟩,
    fun h => similarityScore_casefold_eq h, ?_⟩
  intro h
  rw [similarityScore_casefold_eq h]
  exact similarityScore_le_one b ref

theorem c7_witness :
    similarityScore "Track My Order" "track my ORDER" = 1 ∧
    similarityScore "something else" "TRACK MY ORDER" ≤
      similarityScore "Track My Order" "TRACK MY ORDER" :=
  ⟨(c7_similarity_bounds "Track My Order" "track my ORDER" "x").2.1 (by decide),
   (c7_similarity_bounds "Track My Order" "something else" "TRACK MY ORDER").2.2 (by decide)⟩

/-- C8, as stated, is false on the code: `SequenceMatcher.ratio` is not
symmetric — `similarity_score("ab", "bacb")` is `2/3` while
`similarity_score("bacb", "ab")` is `1/3`. -/
theorem c8_counterexample :
    similarityScore "ab" "bacb" ≠ similarityScore "bacb" "ab" := by
  unfold similarityScore pyRatio
  rw [show matchedTotal (lowerChars "ab") (lowerChars "bacb") 0 (lowerChars "ab").length 0
        (lowerChars "bacb").length = 2 from by decide,
      show matchedTotal (lowerChars "bacb") (lowerChars "ab") 0 (lowerChars "bacb").length 0
        (lowerChars "ab").length = 1 from by decide,
      show (lowerChars "ab").length = 2 from by decide,
      show (lowerChars "bacb").length = 4 from by decide]
  norm_num

/-- C8 (amended): the score is not symmetric in general; symmetry does hold
whenever the two strings agree after case-folding (both orders compare the
same pair of folded strings). -/
theorem c8_casefold_symmetric (a b : String) (h : lowerChars a = lowerChars b) :
    similarityScore a b = similarityScore b a := by
  unfold similarityScore
  rw [h]

theorem c8_witness : similarityScore "Ab" "aB" = similarityScore "aB" "Ab" :=
  c8_casefold_symmetric "Ab" "aB" (by decide)

/-- C9: a request whose user identifier or message strips to the empty
string fails fast with the 400 validation response, and the trace is empty:
no conversation turn is saved, no FAQ row written, no prompt built, and the
model is not invoked. -/
theorem c9_validation_fail_fast (modelId : String) (w : ChatWorld) (u m : String)
    (sid : Option String) (h : pyStrip u = "" ∨ pyStrip m = "") :
    lambdaHandler modelId w u m sid =
      (.badRequest "user_id and message are required", ⟨[], [], [], 0⟩) := by
  unfold lambdaHandler
  rw [if_pos h]

theorem c9_witness :
    lambdaHandler "amazon.nova-pro-v1:0"
        ⟨"sess-1", "msg-u", "msg-a", .ok (), .ok [], .otherError, .ok ()⟩
        "   " "Where is my order?" none =
      (.badRequest "user_id and message are required", ⟨[], [], [], 0⟩) :=
  c9_validation_fail_fast "amazon.nova-pro-v1:0"
    ⟨"sess-1", "msg-u", "msg-a", .ok (), .ok [], .otherError, .ok ()⟩
    "   " "Where is my order?" none (Or.inl (by decide))

/-- C10: a failing history query is absorbed by `get_recent_history`, which
returns the empty list, and the resolution continues: the handler still
succeeds and the prompt is built with no prior turns. -/
theorem c10_history_failure_absorbed (modelId : String) (w : ChatWorld)
    (u m : String) (sid : Option String) (e : StoreErr)
    (hq : w.historyQuery = .error e)
    (hu : ¬ pyStrip u = "") (hm : ¬ pyStrip m = "")
    (hus : w.userSave = .ok ()) (has : w.assistantSave = .ok ()) :
    getRecentHistory w.historyQuery = [] ∧
    lambdaHandler modelId w u m sid =
      (.success ⟨sessionIdOf w sid, w.assistantMsgId,
         callBedrockModel modelId w.invoke, "model",
         shouldEscalate (callBedrockModel modelId w.invoke)⟩,
       ⟨[("user", pyStrip m), ("assistant", callBedrockModel modelId w.invoke)],
        [(pyStrip m, ""), (pyStrip m, callBedrockModel modelId w.invoke)],
        [buildPromptText systemPrompt [] (pyStrip m)], 0⟩) := by
  constructor
  · rw [hq]
    rfl
  · rw [lambdaHandler_model_path modelId w u m sid hu hm hus has, hq]
    rfl

theorem c10_witness :
    getRecentHistory (Except.error ⟨"boom"⟩) = [] ∧
    lambdaHandler "amazon.nova-pro-v1:0"
        ⟨"sess-1", "msg-u", "msg-a", .ok (), .error ⟨"boom"⟩,
          .ok (Json.obj [("text", Json.str "All good")]), .ok ()⟩
        "alice" "Where is my order?" none =
      (.success ⟨sessionIdOf
          ⟨"sess-1", "msg-u", "msg-a", .ok (), .error ⟨"boom"⟩,
            .ok (Json.obj [("text", Json.str "All good")]), .ok ()⟩ none, "msg-a",
         callBedrockModel "amazon.nova-pro-v1:0"
           (.ok (Json.obj [("text", Json.str "All good")])), "model",
         shouldEscalate (callBedrockModel "amazon.nova-pro-v1:0"
           (.ok (Json.obj [("text", Json.str "All good")])))⟩,
       ⟨[("user", pyStrip "Where is my order?"),
         ("assistant", callBedrockModel "amazon.nova-pro-v1:0"
           (.ok (Json.obj [("text", Json.str "All good")])))],
        [(pyStrip "Where is my order?", ""),
         (pyStrip "Where is my order?",
          callBedrockModel "amazon.nova-pro-v1:0"
            (.ok (Json.obj [("text", Json.str "All good")])))],
        [buildPromptText systemPrompt [] (pyStrip "Where is my order?")], 0⟩) :=
  c10_history_failure_absorbed "amazon.nova-pro-v1:0"
    ⟨"sess-1", "msg-u", "msg-a", .ok (), .error ⟨"boom"⟩,
      .ok (Json.obj [("text", Json.str "All good")]), .ok ()⟩
    "alice" "Where is my order?" none ⟨"boom"⟩ rfl (by decide) (by decide) rfl rfl

end SmartChat
